import Mathlib

/-!
Verification of the bmadnotion synchronization engine.

This file shallowly embeds the synchronization core of the repository
(`scanner.py`, `store.py`, `page_sync.py`, `db_sync.py`, `project_sync.py`,
`models.py`) as executable Lean definitions and proves the specified
properties about them.

Modelling conventions:
* The SQLite store is a pair of key/value tables.  `INSERT OR REPLACE`
  upserts are modelled as shadowing conses; `lookup` sees the latest binding,
  which matches the point-lookup semantics the engines use.
* The external Notion client is modelled as a trace of remote calls plus a
  fresh-id counter carried in a `World`.  A per-world `failCreates` list
  injects client exceptions on create operations, matching the per-item
  `try/except` behaviour of the engines.
* `hashlib.md5(...).hexdigest()` and `markdown_to_blocks` are external
  collaborators; only digest equality and block count are consumed, so they
  are modelled as a tagged copy of the content and a content-sized list.
* The YAML status ledger is modelled already parsed (an ordered list of
  key/status pairs, `none` when the file is absent), since YAML parsing is
  done by an external library.
-/

namespace BmadNotion

/-- Point lookup in an association table (first binding wins). -/
def lookup {α : Type} (l : List (String × α)) (k : String) : Option α :=
  (l.find? (fun p => p.1 == k)).map (fun p => p.2)

/-- `INSERT OR REPLACE` upsert, modelled as a shadowing cons: the new binding
hides any older binding for the same key. -/
def upsert {α : Type} (l : List (String × α)) (k : String) (v : α) :
    List (String × α) :=
  (k, v) :: l

theorem lookup_nil {α : Type} (k : String) : lookup ([] : List (String × α)) k = none := rfl

theorem lookup_cons {α : Type} (p : String × α) (l : List (String × α)) (k : String) :
    lookup (p :: l) k = if p.1 = k then some p.2 else lookup l k := by
  by_cases h : p.1 = k
  · simp [lookup, List.find?, h]
  · have hb : (p.1 == k) = false := beq_eq_false_iff_ne.mpr h
    simp [lookup, List.find?, hb, h]

theorem lookup_upsert {α : Type} (l : List (String × α)) (k k' : String) (v : α) :
    lookup (upsert l k v) k' = if k = k' then some v else lookup l k' := by
  simp [upsert, lookup_cons]

theorem lookup_upsert_self {α : Type} (l : List (String × α)) (k : String) (v : α) :
    lookup (upsert l k v) k = some v := by
  simp [lookup_upsert]

theorem lookup_upsert_ne {α : Type} (l : List (String × α)) {k k' : String} (v : α)
    (h : k ≠ k') : lookup (upsert l k v) k' = lookup l k' := by
  simp [lookup_upsert, h]

/-!
String primitives: Lean's built-in `String.startsWith` / `replace` /
`splitOn` are implemented with well-founded recursion and do not reduce in
the kernel, so the Python string operations the scanner uses are modelled by
structurally recursive functions over the underlying character lists. -/

/-- `str.startswith`. -/
def strStarts (s p : String) : Bool := p.data.isPrefixOf s.data

/-- `str.endswith`. -/
def strEnds (s p : String) : Bool := p.data.isSuffixOf s.data

/-- Fuel-driven replace-all over character lists (the fuel is the input
length, so it never runs out). -/
def replaceAllAux (pat rep : List Char) : Nat → List Char → List Char
  | _, [] => []
  | 0, l => l
  | fuel + 1, c :: rest =>
      if pat ≠ [] ∧ pat.isPrefixOf (c :: rest) then
        rep ++ replaceAllAux pat rep fuel (List.drop pat.length (c :: rest))
      else c :: replaceAllAux pat rep fuel rest

/-- `str.replace` (all occurrences). -/
def strReplace (s pat rep : String) : String :=
  ⟨replaceAllAux pat.data rep.data s.data.length s.data⟩

/-- Split a character list on a separator character. -/
def charSplit (sep : Char) : List Char → List (List Char)
  | [] => [[]]
  | c :: rest =>
      match charSplit sep rest with
      | [] => [[c]]
      | h :: t => if c = sep then [] :: h :: t else (c :: h) :: t

/-- Model of `hashlib.md5(content.encode()).hexdigest()`: an opaque
deterministic digest of the content.  Only digest equality is consumed by the
engines, so the digest is modelled as the content itself behind a tag (the
tag keeps the digest non-empty, as a real hex digest is). -/
def md5Hex (s : String) : String := "md5:" ++ s

/-- Model of the external `markdown_to_blocks` converter: an opaque ordered
block sequence whose length is the content length. -/
def markdownToBlocks (s : String) : List Unit := List.replicate s.data.length ()

/-- `pathlib.Path.name`: the final path component. -/
def pathName (p : String) : String :=
  String.mk ((charSplit '/' p.data).getLastD p.data)

/-- `str.format(project=...)` on the title templates. -/
def formatTitle (tpl project : String) : String :=
  strReplace tpl "{project}" project

/-- `str.title()`: letters starting an alphabetic run are upper-cased, the
rest lower-cased. -/
def pyTitle (s : String) : String :=
  String.mk (s.data.foldl (fun (acc : List Char × Bool) c =>
    if c.isAlpha then (acc.1 ++ [if acc.2 then c.toLower else c.toUpper], true)
    else (acc.1 ++ [c], false)) ([], false)).1

/-- `key.split("-", 2)`: at most two splits, the remainder stays joined. -/
def splitDashMax2 (key : String) : List String :=
  match charSplit '-' key.data with
  | a :: b :: c :: rest => [⟨a⟩, ⟨b⟩, ⟨List.intercalate ['-'] (c :: rest)⟩]
  | l => l.map String.mk

/-- One line of `_extract_title`'s H1 regex `^#\s+(.+?)(?:\n|$)`: a `#`
followed by at least one whitespace character and a non-empty remainder
yields the stripped remainder of the line. -/
def h1Title (line : List Char) : Option (List Char) :=
  match line with
  | '#' :: c :: rest =>
      if c.isWhitespace then
        let t := ((c :: rest).dropWhile Char.isWhitespace).reverse
          |>.dropWhile Char.isWhitespace |>.reverse
        if t.isEmpty then none else some t
      else none
  | _ => none

/-- The regex `^(Epic|Story)\s+[\d.]+:\s*` substitution in `_extract_title`:
strips a leading `Epic N:` / `Story N.M:` tag. -/
def stripHeadingTag (t : List Char) : List Char :=
  let tryWord : List Char → Option (List Char) := fun w =>
    if w.isPrefixOf t then
      let r := List.drop w.length t
      let ws := r.takeWhile Char.isWhitespace
      if ws.isEmpty then none
      else
        let r2 := r.dropWhile Char.isWhitespace
        let ds := r2.takeWhile (fun c => c.isDigit || c = '.')
        if ds.isEmpty then none
        else
          let r3 := List.drop ds.length r2
          match r3 with
          | ':' :: r4 => some (r4.dropWhile Char.isWhitespace)
          | _ => none
    else none
  match tryWord "Epic".data with
  | some r => r
  | none =>
    match tryWord "Story".data with
    | some r => r
    | none => t

/-- `BMADScanner._extract_title`: first H1 heading of the markdown content,
with a conventional `Epic N:` / `Story N.M:` tag stripped; `default`
otherwise. -/
def extractTitle (content : String) (default : String) : String :=
  match (charSplit '\n' content.data).findSome? h1Title with
  | some t => ⟨stripHeadingTag t⟩
  | none => default

/-- `BMADScanner._infer_epic_key`: regex `^(\d+)-` over the story key. -/
def inferEpicKey (storyKey : String) : String :=
  let ds := storyKey.data.takeWhile Char.isDigit
  if ds.isEmpty then "epic-unknown"
  else
    match List.drop ds.length storyKey.data with
    | '-' :: _ => "epic-" ++ ⟨ds⟩
    | _ => "epic-unknown"

/-- Kernel-reducible decimal rendering of a `Nat` (for the modelled client's
fresh page ids). -/
def natDigits : Nat → Nat → List Char
  | 0, _ => []
  | fuel + 1, n =>
      if n < 10 then [Char.ofNat (48 + n)]
      else natDigits fuel (n / 10) ++ [Char.ofNat (48 + n % 10)]

/-- Decimal string of a `Nat`. -/
def natToStr (n : Nat) : String := ⟨natDigits (n + 1) n⟩

/-! ## Data model (`models.py`) -/

/-- `models.Document`. -/
structure Document where
  path : String
  title : String
  content : String
  mtime : Int
deriving DecidableEq

/-- `Document.content_hash`. -/
def Document.content_hash (d : Document) : String := md5Hex d.content

/-- `models.Epic`. -/
structure Epic where
  key : String
  title : String
  status : String
  file_path : Option String := none
  mtime : Option Int := none
deriving DecidableEq

/-- `models.Story`. -/
structure Story where
  key : String
  epic_key : String
  title : String
  status : String
  file_path : Option String := none
  mtime : Option Int := none
  content : Option String := none
deriving DecidableEq

/-- `Story.content_hash`: `None` when the story has no content. -/
def Story.content_hash (s : Story) : Option String := s.content.map md5Hex

/-- `models.PageSyncState`. -/
structure PageSyncState where
  local_path : String
  notion_page_id : String
  last_synced_mtime : Int
  content_hash : String
deriving DecidableEq

/-- `models.DbSyncState`. -/
structure DbSyncState where
  local_key : String
  entity_type : String
  notion_page_id : String
  last_synced_mtime : Option Int := none
  content_hash : Option String := none
deriving DecidableEq

/-- `models.SyncResult`. -/
structure SyncResult where
  created : Nat := 0
  updated : Nat := 0
  skipped : Nat := 0
  failed : Nat := 0
  errors : List String := []
deriving DecidableEq

/-- `SyncResult.total`. -/
def SyncResult.total (r : SyncResult) : Nat :=
  r.created + r.updated + r.skipped + r.failed

/-- `models.DbSyncResult`. -/
structure DbSyncResult where
  epics_created : Nat := 0
  epics_updated : Nat := 0
  epics_skipped : Nat := 0
  epics_failed : Nat := 0
  stories_created : Nat := 0
  stories_updated : Nat := 0
  stories_skipped : Nat := 0
  stories_failed : Nat := 0
  errors : List String := []
deriving DecidableEq

/-! ## Configuration (`config.py`, as consumed by the engines) -/

/-- `config.DocumentConfig`. -/
structure DocumentConfig where
  path : String
  title : String
deriving DecidableEq

/-- `config.PathsConfig` (the fields the scanner reads). -/
structure PathsConfig where
  planning_artifacts : String
  implementation_artifacts : String
  sprint_status : String
deriving DecidableEq

/-- `config.PageSyncConfig`. -/
structure PageSyncConfig where
  enabled : Bool := true
  parent_page_id : Option String := none
  documents : List DocumentConfig := []
deriving DecidableEq

/-- `config.SprintsDbConfig`, including the property-name fields the database
sync engine reads.  An empty `status_property` models a falsy (absent)
value. -/
structure SprintsDbConfig where
  database_id : Option String := none
  name_property : String
  status_property : String
  key_property : String := "BMADEpic"
  status_mapping : List (String × String)
deriving DecidableEq

/-- `config.TasksDbConfig`, including the property-name fields the database
sync engine reads. -/
structure TasksDbConfig where
  database_id : Option String := none
  name_property : String
  status_property : String
  key_property : String := "BMADStory"
  require_story_file : Bool
  status_mapping : List (String × String)
deriving DecidableEq

/-- `config.ProjectsDbConfig`. -/
structure ProjectsDbConfig where
  database_id : Option String := none
  key_property : String := "BMADProject"
  name_property : String := "Project name"
deriving DecidableEq

/-- `config.DatabaseSyncConfig`. -/
structure DatabaseSyncConfig where
  enabled : Bool := true
  projects : ProjectsDbConfig
  sprints : SprintsDbConfig
  tasks : TasksDbConfig
deriving DecidableEq

/-- `config.Config` (the fields the engines read). -/
structure Config where
  project : String
  paths : PathsConfig
  page_sync : PageSyncConfig
  database_sync : DatabaseSyncConfig
deriving DecidableEq

/-- `dict.get(status, status)` over a status mapping: unmapped statuses pass
through unchanged. -/
def mapStatus (m : List (String × String)) (s : String) : String :=
  (lookup m s).getD s

/-! ## The external world: local files, sync store, Notion client -/

/-- A local file's content and `stat().st_mtime`. -/
structure FileData where
  content : String
  mtime : Int
deriving DecidableEq

/-- The local filesystem: files by path, plus the YAML status ledger already
parsed (`none` when `sprint-status.yaml` is absent; otherwise the ordered
`development_status` mapping). -/
structure FS where
  files : List (String × FileData)
  sprintStatus : Option (List (String × String))
deriving DecidableEq

/-- Typed rendering of the `properties` dict sent to the Notion databases:
title property, optional status property, key property, and the optional
`Sprint` / `Project` relation entries. -/
structure Props where
  nameProp : String × String
  statusProp : Option (String × String) := none
  keyProp : String × String
  sprintRel : Option String := none
  projectRel : Option String := none
deriving DecidableEq

/-- One call into the Notion client, with the id the client returned where
applicable. -/
inductive RemoteCall where
  | createChildPage (parent : String) (title : String) (hasChildren : Bool) (ret : String)
  | appendBatches (pageId : String)
  | clearPage (pageId : String)
  | appendBlocks (pageId : String)
  | createDbEntry (databaseId : String) (props : Props) (ret : String)
  | updateDbEntry (pageId : String) (props : Props)
  | retrieveDatabase (databaseId : String)
  | queryDataSource (keyProperty : String) (equalsValue : String)
  | createPage (databaseId : String) (projectKey : String) (ret : String)
deriving DecidableEq

/-- The mutable world threaded through a sync run: the two store tables, the
chronicle of remote calls (newest first), the client's fresh-id supply, the
injected client failures (create calls whose key or title is listed raise),
and the remote Projects database contents used by project resolution. -/
structure World where
  pages : List (String × PageSyncState) := []
  dbs : List (String × DbSyncState) := []
  trace : List RemoteCall := []
  nextId : Nat := 0
  failCreates : List String := []
  remoteProjects : List (String × String) := []
  hasDataSource : Bool := true
deriving DecidableEq

/-- The fresh page id the modelled client returns for the next create. -/
def World.freshId (w : World) : String := "page-" ++ natToStr w.nextId

/-! ## Local scanner (`scanner.py`) -/

/-- `scanner.DEFAULT_DOCUMENTS`. -/
def defaultDocuments : List DocumentConfig :=
  [⟨"prd.md", "PRD - {project}"⟩,
   ⟨"architecture.md", "Architecture - {project}"⟩,
   ⟨"ux-design-specification.md", "UX Design - {project}"⟩,
   ⟨"product-brief.md", "Product Brief - {project}"⟩]

/-- `BMADScanner.scan_documents`: for each configured (or default) document,
read the file if present (skip silently if absent) and emit a `Document`
whose title template is formatted with the project name. -/
def scanDocuments (fs : FS) (paths : PathsConfig) (project : String)
    (docConfigs : List DocumentConfig) : List Document :=
  let cfgs := if docConfigs.isEmpty then defaultDocuments else docConfigs
  cfgs.filterMap fun dc =>
    let docPath := paths.planning_artifacts ++ "/" ++ dc.path
    match lookup fs.files docPath with
    | none => none
    | some fd => some ⟨docPath, formatTitle dc.title project, fd.content, fd.mtime⟩

/-- `BMADScanner._parse_epic`: default `Epic N` title unless a
`epics/epic-N-*.md` file exists, in which case the first glob match supplies
file path, mtime and extracted title. -/
def parseEpic (fs : FS) (paths : PathsConfig) (key status : String) : Epic :=
  let epicNum := strReplace key "epic-" ""
  let defaultTitle := "Epic " ++ epicNum
  let epicsDir := paths.planning_artifacts ++ "/epics"
  match fs.files.find? (fun f =>
      strStarts f.1 (epicsDir ++ "/epic-" ++ epicNum ++ "-") &&
      strEnds f.1 ".md") with
  | none => ⟨key, defaultTitle, status, none, none⟩
  | some f =>
      ⟨key, extractTitle f.2.content defaultTitle, status, some f.1, some f.2.mtime⟩

/-- `BMADScanner._parse_story`: title derived from the key's slug segment,
overridden by the backing file's H1 when `{key}.md` exists under the
implementation artifacts. -/
def parseStory (fs : FS) (paths : PathsConfig) (key status epicKey : String) :
    Story :=
  let parts := splitDashMax2 key
  let keyTitle := if parts.length ≥ 3 then pyTitle (strReplace (parts.getD 2 "") "-" " ")
    else key
  let storyFile := paths.implementation_artifacts ++ "/" ++ key ++ ".md"
  match lookup fs.files storyFile with
  | none => ⟨key, epicKey, keyTitle, status, none, none, none⟩
  | some fd =>
      ⟨key, epicKey, extractTitle fd.content keyTitle, status,
       some storyFile, some fd.mtime, some fd.content⟩

/-- One step of `BMADScanner.scan_sprint_status`'s ledger walk: the fold
state carries the epics and stories emitted so far and the most recently
seen epic key. -/
def scanStep (fs : FS) (paths : PathsConfig)
    (acc : List Epic × List Story × Option String) (kv : String × String) :
    List Epic × List Story × Option String :=
  if strEnds kv.1 "-retrospective" then acc
  else if strStarts kv.1 "epic-" then
    (acc.1 ++ [parseEpic fs paths kv.1 kv.2], acc.2.1, some kv.1)
  else
    let epicKey := match acc.2.2 with
      | some c => c
      | none => inferEpicKey kv.1
    (acc.1, acc.2.1 ++ [parseStory fs paths kv.1 kv.2 epicKey], acc.2.2)

/-- `BMADScanner.scan_sprint_status`: fails with the ledger-not-found error
when the ledger file is absent; otherwise walks the ordered
`development_status` entries. -/
def scanSprintStatus (fs : FS) (paths : PathsConfig) :
    Except String (List Epic × List Story) :=
  match fs.sprintStatus with
  | none => .error ("Sprint status file not found: " ++ paths.sprint_status)
  | some entries =>
      let r := entries.foldl (scanStep fs paths) ([], [], none)
      .ok (r.1, r.2.1)

/-! ## Page sync engine (`page_sync.py`) -/

/-- The action `_sync_document` / `_sync_epic` / `_sync_story` reports. -/
inductive Action where
  | created
  | updated
  | skipped
deriving DecidableEq

/-- The message of the injected client exception on a failing create. -/
def createFailMsg : String := "client error on create"

/-- `PageSyncEngine._sync_document`.  The result is the action taken, or the
caught exception message; the returned world reflects the store writes and
remote calls made before returning (or raising). -/
def syncDocument (doc : Document) (parentPageId : String)
    (force dryRun : Bool) (w : World) : Except String Action × World :=
  let localPath := pathName doc.path
  let state := lookup w.pages localPath
  let needsSync := force ||
    (match state with
     | none => true
     | some st => st.content_hash != doc.content_hash)
  if !needsSync then (.ok .skipped, w)
  else
    let blocks := markdownToBlocks doc.content
    if dryRun then
      (.ok (if state.isNone then Action.created else Action.updated), w)
    else
      match state with
      | none =>
          if doc.title ∈ w.failCreates then (.error createFailMsg, w)
          else
            let pageId := w.freshId
            let w1 : World :=
              { w with
                  trace := .createChildPage parentPageId doc.title
                    (!blocks.isEmpty) pageId :: w.trace,
                  nextId := w.nextId + 1 }
            let rec1 : PageSyncState := ⟨localPath, pageId, doc.mtime, doc.content_hash⟩
            let w2 : World := { w1 with pages := upsert w1.pages localPath rec1 }
            let w3 : World :=
              if blocks.length > 100 then
                { w2 with trace := .appendBatches pageId :: w2.trace }
              else w2
            (.ok .created, w3)
      | some st =>
          let pageId := st.notion_page_id
          let w1 : World := { w with trace := .clearPage pageId :: w.trace }
          let w2 : World :=
            if !blocks.isEmpty then
              { w1 with trace := .appendBatches pageId :: w1.trace }
            else w1
          let rec1 : PageSyncState := ⟨localPath, pageId, doc.mtime, doc.content_hash⟩
          let w3 : World := { w2 with pages := upsert w2.pages localPath rec1 }
          (.ok .updated, w3)

/-- The per-document loop of `PageSyncEngine.sync`: each document's outcome
bumps exactly one counter; a caught exception is appended to the error
list and never aborts the remaining documents. -/
def pageSyncLoop (parentPageId : String) (force dryRun : Bool) :
    List Document → SyncResult → World → SyncResult × World
  | [], acc, w => (acc, w)
  | doc :: rest, acc, w =>
      match syncDocument doc parentPageId force dryRun w with
      | (.ok a, w') =>
          let acc' := match a with
            | .created => { acc with created := acc.created + 1 }
            | .updated => { acc with updated := acc.updated + 1 }
            | .skipped => { acc with skipped := acc.skipped + 1 }
          pageSyncLoop parentPageId force dryRun rest acc' w'
      | (.error e, w') =>
          pageSyncLoop parentPageId force dryRun rest
            { acc with
                failed := acc.failed + 1,
                errors := acc.errors ++
                  ["Failed to sync " ++ pathName doc.path ++ ": " ++ e] } w'

/-- `PageSyncEngine.sync`: short-circuits when page sync is disabled or no
parent page id is resolvable, scans the documents, applies the filename
filter, and runs the per-document loop. -/
def pageSync (cfg : Config) (fs : FS) (force dryRun : Bool)
    (projectPageId : Option String) (filterPath : Option String) (w : World) :
    SyncResult × World :=
  if !cfg.page_sync.enabled then ({}, w)
  else
    let parentPageId := match projectPageId with
      | some s => if s = "" then cfg.page_sync.parent_page_id.getD "" else s
      | none => cfg.page_sync.parent_page_id.getD ""
    if parentPageId = "" then
      ({ failed := 1,
         errors := ["No parent page ID. Set project_page_id or page_sync.parent_page_id."] }, w)
    else
      let documents := scanDocuments fs cfg.paths cfg.project cfg.page_sync.documents
      match filterPath with
      | some fp =>
          let documents := documents.filter (fun d => pathName d.path == fp)
          if documents.isEmpty then
            ({ failed := 1, errors := ["Document not found: " ++ fp] }, w)
          else pageSyncLoop parentPageId force dryRun documents {} w
      | none => pageSyncLoop parentPageId force dryRun documents {} w

/-! ## Project resolution engine (`project_sync.py`) -/

/-- `ProjectSyncEngine.get_or_create_project` together with its helpers
`_find_project_by_key` and `_create_project`.  The remote Projects database
is modelled by `World.remoteProjects` (rows keyed by the key property's
value) and `World.hasDataSource`. -/
def getOrCreateProject (cfg : Config) (dryRun : Bool) (w : World) :
    Except String (String × Bool) × World :=
  let projectKey := cfg.project
  let dbc := cfg.database_sync.projects
  if dbc.database_id.getD "" = "" then
    (.error "Projects database_id not configured", w)
  else
    match lookup w.dbs ("project:" ++ projectKey) with
    | some st => (.ok (st.notion_page_id, false), w)
    | none =>
        if dryRun then (.ok ("dry-run-project-" ++ projectKey, true), w)
        else
          let w1 : World :=
            { w with trace := .retrieveDatabase (dbc.database_id.getD "") :: w.trace }
          let found := if w1.hasDataSource then lookup w1.remoteProjects projectKey else none
          let w2 : World :=
            if w1.hasDataSource then
              { w1 with trace := .queryDataSource dbc.key_property projectKey :: w1.trace }
            else w1
          match found with
          | some pid =>
              let rec1 : DbSyncState := ⟨"project:" ++ projectKey, "project", pid, none, none⟩
              let w3 : World :=
                { w2 with dbs := upsert w2.dbs ("project:" ++ projectKey) rec1 }
              (.ok (pid, false), w3)
          | none =>
              let pid := w2.freshId
              let w3 : World :=
                { w2 with
                    trace := .createPage (dbc.database_id.getD "") projectKey pid :: w2.trace,
                    nextId := w2.nextId + 1 }
              let rec1 : DbSyncState := ⟨"project:" ++ projectKey, "project", pid, none, none⟩
              let w4 : World :=
                { w3 with dbs := upsert w3.dbs ("project:" ++ projectKey) rec1 }
              (.ok (pid, true), w4)

/-! ## Database sync engine (`db_sync.py`) -/

/-- The `properties` dict `_sync_epic` builds: name, key, and status only when
a status property is configured (Python truthiness: `""` is falsy). -/
def epicProps (sc : SprintsDbConfig) (epic : Epic) : Props :=
  { nameProp := (sc.name_property, epic.title),
    statusProp :=
      if sc.status_property ≠ "" then
        some (sc.status_property, mapStatus sc.status_mapping epic.status)
      else none,
    keyProp := (sc.key_property, epic.key) }

/-- The push path of `_sync_epic` (everything after the skip check). -/
def syncEpicPush (dbCfg : DatabaseSyncConfig) (epic : Epic) (dryRun : Bool)
    (state : Option DbSyncState) (w : World) :
    Except String (Action × String) × World :=
  let sc := dbCfg.sprints
  let properties := epicProps sc epic
  if dryRun then
    (.ok ((if state.isNone then Action.created else Action.updated),
      "dry-run-" ++ epic.key), w)
  else
    let databaseId := sc.database_id.getD ""
    if databaseId = "" then (.error "Sprints database_id not configured", w)
    else
      match state with
      | none =>
          if epic.key ∈ w.failCreates then (.error createFailMsg, w)
          else
            let pageId := w.freshId
            let w1 : World :=
              { w with
                  trace := .createDbEntry databaseId properties pageId :: w.trace,
                  nextId := w.nextId + 1 }
            let rec1 : DbSyncState := ⟨epic.key, "epic", pageId, epic.mtime, none⟩
            let w2 : World := { w1 with dbs := upsert w1.dbs epic.key rec1 }
            (.ok (.created, pageId), w2)
      | some st =>
          let pageId := st.notion_page_id
          let w1 : World := { w with trace := .updateDbEntry pageId properties :: w.trace }
          let rec1 : DbSyncState := ⟨epic.key, "epic", pageId, epic.mtime, none⟩
          let w2 : World := { w1 with dbs := upsert w1.dbs epic.key rec1 }
          (.ok (.updated, pageId), w2)

/-- `state.last_synced_mtime != entity.mtime` guarded by the Python
truthiness of `entity.mtime` (`None` and `0` are falsy). -/
def mtimeChangedB (st : DbSyncState) (mtime : Option Int) : Bool :=
  match mtime with
  | some mt => if mt = 0 then false else decide (st.last_synced_mtime ≠ some mt)
  | none => false

/-- `DbSyncEngine._sync_epic`: mtime-based change detection, then skip or
push. -/
def syncEpic (dbCfg : DatabaseSyncConfig) (epic : Epic) (force dryRun : Bool)
    (w : World) : Except String (Action × String) × World :=
  let state := lookup w.dbs epic.key
  let mtimeChanged : Bool :=
    match state with
    | some st => mtimeChangedB st epic.mtime
    | none => false
  let needsSync := force || state.isNone || mtimeChanged
  match state with
  | some st =>
      if !needsSync then (.ok (.skipped, st.notion_page_id), w)
      else syncEpicPush dbCfg epic dryRun (some st) w
  | none => syncEpicPush dbCfg epic dryRun none w

/-- The `properties` dict `_sync_story` builds: name, status (always), key,
plus `Sprint` / `Project` relations when the page ids are truthy. -/
def storyProps (tc : TasksDbConfig) (story : Story)
    (epicPageId projectPageId : Option String) : Props :=
  { nameProp := (tc.name_property, story.title),
    statusProp := some (tc.status_property, mapStatus tc.status_mapping story.status),
    keyProp := (tc.key_property, story.key),
    sprintRel :=
      match epicPageId with
      | some s => if s = "" then none else some s
      | none => none,
    projectRel :=
      match projectPageId with
      | some s => if s = "" then none else some s
      | none => none }

/-- The push path of `_sync_story` (everything after the skip check). -/
def syncStoryPush (tc : TasksDbConfig) (story : Story)
    (epicPageId projectPageId : Option String) (dryRun : Bool)
    (state : Option DbSyncState) (w : World) : Except String Action × World :=
  let properties := storyProps tc story epicPageId projectPageId
  if dryRun then
    (.ok (if state.isNone then Action.created else Action.updated), w)
  else
    let databaseId := tc.database_id.getD ""
    if databaseId = "" then (.error "Tasks database_id not configured", w)
    else
      match state with
      | none =>
          if story.key ∈ w.failCreates then (.error createFailMsg, w)
          else
            let pageId := w.freshId
            let w1 : World :=
              { w with
                  trace := .createDbEntry databaseId properties pageId :: w.trace,
                  nextId := w.nextId + 1 }
            let w2 : World :=
              if (story.content.getD "") ≠ "" then
                { w1 with trace := .appendBlocks pageId :: w1.trace }
              else w1
            let rec1 : DbSyncState :=
              ⟨story.key, "story", pageId, story.mtime, story.content_hash⟩
            let w3 : World := { w2 with dbs := upsert w2.dbs story.key rec1 }
            (.ok .created, w3)
      | some st =>
          let pageId := st.notion_page_id
          let w1 : World := { w with trace := .updateDbEntry pageId properties :: w.trace }
          let w2 : World :=
            if (story.content.getD "") ≠ "" then
              { w1 with trace := .appendBlocks pageId :: .clearPage pageId :: w1.trace }
            else w1
          let rec1 : DbSyncState :=
            ⟨story.key, "story", pageId, story.mtime, story.content_hash⟩
          let w3 : World := { w2 with dbs := upsert w2.dbs story.key rec1 }
          (.ok .updated, w3)

/-- `DbSyncEngine._sync_story`: content-hash-based change detection when the
story has content, mtime-based otherwise, then skip or push. -/
def syncStory (tc : TasksDbConfig) (story : Story)
    (epicPageId projectPageId : Option String) (force dryRun : Bool)
    (w : World) : Except String Action × World :=
  let state := lookup w.dbs story.key
  let needsSync : Bool :=
    if (story.content_hash.getD "") ≠ "" then
      let hashChanged :=
        match state with
        | some st => decide (st.content_hash ≠ story.content_hash)
        | none => false
      force || state.isNone || hashChanged
    else
      let mtimeChanged :=
        match state with
        | some st => mtimeChangedB st story.mtime
        | none => false
      force || state.isNone || mtimeChanged
  if !needsSync then (.ok .skipped, w)
  else syncStoryPush tc story epicPageId projectPageId dryRun state w

/-- The epic phase of `DbSyncEngine.sync`: per-epic isolation, tallies, and
the in-memory `epic_id_map` built for the story phase. -/
def epicLoop (dbCfg : DatabaseSyncConfig) (force dryRun : Bool) :
    List Epic → DbSyncResult → List (String × String) → World →
    DbSyncResult × List (String × String) × World
  | [], acc, m, w => (acc, m, w)
  | epic :: rest, acc, m, w =>
      match syncEpic dbCfg epic force dryRun w with
      | (.ok (a, pageId), w') =>
          let m' := upsert m epic.key pageId
          let acc' := match a with
            | .created => { acc with epics_created := acc.epics_created + 1 }
            | .updated => { acc with epics_updated := acc.epics_updated + 1 }
            | .skipped => { acc with epics_skipped := acc.epics_skipped + 1 }
          epicLoop dbCfg force dryRun rest acc' m' w'
      | (.error e, w') =>
          epicLoop dbCfg force dryRun rest
            { acc with
                epics_failed := acc.epics_failed + 1,
                errors := acc.errors ++
                  ["Failed to sync epic " ++ epic.key ++ ": " ++ e] } m w'

/-- The story phase of `DbSyncEngine.sync`: per-story isolation and tallies;
each story's epic relation is resolved through the `epic_id_map`. -/
def storyLoop (dbCfg : DatabaseSyncConfig) (projectPageId : Option String)
    (force dryRun : Bool) (m : List (String × String)) :
    List Story → DbSyncResult → World → DbSyncResult × World
  | [], acc, w => (acc, w)
  | story :: rest, acc, w =>
      let epicPageId := lookup m story.epic_key
      match syncStory dbCfg.tasks story epicPageId projectPageId force dryRun w with
      | (.ok a, w') =>
          let acc' := match a with
            | .created => { acc with stories_created := acc.stories_created + 1 }
            | .updated => { acc with stories_updated := acc.stories_updated + 1 }
            | .skipped => { acc with stories_skipped := acc.stories_skipped + 1 }
          storyLoop dbCfg projectPageId force dryRun m rest acc' w'
      | (.error e, w') =>
          storyLoop dbCfg projectPageId force dryRun m rest
            { acc with
                stories_failed := acc.stories_failed + 1,
                errors := acc.errors ++
                  ["Failed to sync story " ++ story.key ++ ": " ++ e] } w'

/-- The two-phase body of `DbSyncEngine.sync` (lines 94-144): all epics are
processed first, then all stories against the resulting `epic_id_map`. -/
def dbSyncCore (dbCfg : DatabaseSyncConfig) (epics : List Epic)
    (stories : List Story) (force dryRun : Bool)
    (projectPageId : Option String) (w : World) : DbSyncResult × World :=
  let r := epicLoop dbCfg force dryRun epics {} [] w
  storyLoop dbCfg projectPageId force dryRun r.2.1 stories r.1 r.2.2

/-- `DbSyncEngine.sync`: disabled check, ledger scan (which may fail with the
ledger-not-found error), the `require_story_file` filter, the key filter, and
the two-phase core. -/
def dbSync (cfg : Config) (fs : FS) (force dryRun : Bool)
    (projectPageId : Option String) (filterKey : Option String) (w : World) :
    Except String (DbSyncResult × World) :=
  if !cfg.database_sync.enabled then .ok ({}, w)
  else
    match scanSprintStatus fs cfg.paths with
    | .error e => .error e
    | .ok (epics0, stories0) =>
        let stories1 :=
          if cfg.database_sync.tasks.require_story_file then
            stories0.filter (fun s => s.file_path.isSome)
          else stories0
        let ep : List Epic × List Story :=
          match filterKey with
          | none => (epics0, stories1)
          | some fk =>
              if strStarts fk "epic-" then
                (epics0.filter (fun e => e.key == fk), [])
              else
                let fstories := stories1.filter (fun s => s.key == fk)
                if fstories.isEmpty then (epics0, fstories)
                else
                  let epicKeys := fstories.map (fun s => s.epic_key)
                  (epics0.filter (fun e => e.key ∈ epicKeys), fstories)
        .ok (dbSyncCore cfg.database_sync ep.1 ep.2 force dryRun projectPageId w)

/-! ## Change-detection predicates (spec wording)

These predicates transcribe the spec's needs-push conditions; the theorems
below compare them with what the engine code computes. -/

/-- Spec: "Needs-push = force OR no record OR record.fingerprint ≠
document.fingerprint." -/
def docNeedsPush (w : World) (force : Bool) (d : Document) : Bool :=
  force ||
    (match lookup w.pages (pathName d.path) with
     | none => true
     | some st => st.content_hash != d.content_hash)

/-- A document with no prior sync record. -/
def docIsNew (w : World) (d : Document) : Bool :=
  (lookup w.pages (pathName d.path)).isNone

/-! ## Frame lemmas for the single-item steps -/

theorem syncDocument_frame (doc : Document) (p : String) (force dryRun : Bool)
    (w : World) :
    ((syncDocument doc p force dryRun w).2).failCreates = w.failCreates ∧
    ((syncDocument doc p force dryRun w).2).dbs = w.dbs ∧
    ∀ k, k ≠ pathName doc.path →
      lookup ((syncDocument doc p force dryRun w).2).pages k = lookup w.pages k := by
  rcases h : lookup w.pages (pathName doc.path) with _ | st <;>
    simp only [syncDocument, h] <;> split <;>
    simp_all [lookup_upsert_ne, Ne.symm] <;> split <;>
    simp_all [lookup_upsert_ne, Ne.symm] <;> split <;>
    simp_all [lookup_upsert_ne, Ne.symm] <;> split <;>
    simp_all [lookup_upsert_ne, Ne.symm]

/-- The needs-push condition `_sync_epic` computes. -/
def epicNeedsPush (w : World) (force : Bool) (e : Epic) : Bool :=
  force ||
    (match lookup w.dbs e.key with
     | none => true
     | some st => mtimeChangedB st e.mtime)

/-- The needs-push condition `_sync_story` computes. -/
def storyNeedsPush (w : World) (force : Bool) (s : Story) : Bool :=
  if (s.content_hash.getD "") ≠ "" then
    force ||
      (match lookup w.dbs s.key with
       | none => true
       | some st => decide (st.content_hash ≠ s.content_hash))
  else
    force ||
      (match lookup w.dbs s.key with
       | none => true
       | some st => mtimeChangedB st s.mtime)

theorem syncEpic_eq (dbCfg : DatabaseSyncConfig) (epic : Epic)
    (force dryRun : Bool) (w : World) :
    syncEpic dbCfg epic force dryRun w =
      match lookup w.dbs epic.key with
      | some st =>
          if epicNeedsPush w force epic then
            syncEpicPush dbCfg epic dryRun (some st) w
          else (.ok (.skipped, st.notion_page_id), w)
      | none => syncEpicPush dbCfg epic dryRun none w := by
  rcases h : lookup w.dbs epic.key with _ | st
  · simp [syncEpic, epicNeedsPush, h]
  · simp only [syncEpic, epicNeedsPush, h]
    rcases force with _ | _ <;> rcases hm : mtimeChangedB st epic.mtime with _ | _ <;>
      simp [hm]

theorem syncStory_eq (tc : TasksDbConfig) (story : Story)
    (epicPageId projectPageId : Option String) (force dryRun : Bool) (w : World) :
    syncStory tc story epicPageId projectPageId force dryRun w =
      if storyNeedsPush w force story then
        syncStoryPush tc story epicPageId projectPageId dryRun
          (lookup w.dbs story.key) w
      else (.ok .skipped, w) := by
  rcases h : lookup w.dbs story.key with _ | st
  · by_cases hc : story.content_hash.getD "" = "" <;>
      simp [syncStory, storyNeedsPush, h, hc]
  · by_cases hc : story.content_hash.getD "" = ""
    · rcases force with _ | _
      · rcases hm : mtimeChangedB st story.mtime with _ | _ <;>
          simp [syncStory, storyNeedsPush, h, hc, hm]
      · simp [syncStory, storyNeedsPush, h, hc]
    · rcases force with _ | _
      · by_cases hh : st.content_hash = story.content_hash <;>
          simp [syncStory, storyNeedsPush, h, hc, hh]
      · simp [syncStory, storyNeedsPush, h, hc]

theorem syncEpicPush_frame (dbCfg : DatabaseSyncConfig) (epic : Epic)
    (dryRun : Bool) (state : Option DbSyncState) (w : World) :
    ((syncEpicPush dbCfg epic dryRun state w).2).failCreates = w.failCreates ∧
    ((syncEpicPush dbCfg epic dryRun state w).2).pages = w.pages ∧
    ∀ k, k ≠ epic.key →
      lookup ((syncEpicPush dbCfg epic dryRun state w).2).dbs k = lookup w.dbs k := by
  rcases state with _ | st <;> simp only [syncEpicPush] <;> repeat' split
  all_goals
    first
      | exact ⟨rfl, rfl, fun _ _ => rfl⟩
      | (refine ⟨rfl, rfl, fun k hk => ?_⟩
         simp [lookup_upsert, Ne.symm hk])

theorem syncEpic_frame (dbCfg : DatabaseSyncConfig) (epic : Epic)
    (force dryRun : Bool) (w : World) :
    ((syncEpic dbCfg epic force dryRun w).2).failCreates = w.failCreates ∧
    ((syncEpic dbCfg epic force dryRun w).2).pages = w.pages ∧
    ∀ k, k ≠ epic.key →
      lookup ((syncEpic dbCfg epic force dryRun w).2).dbs k = lookup w.dbs k := by
  rw [syncEpic_eq]
  rcases lookup w.dbs epic.key with _ | st
  · exact syncEpicPush_frame dbCfg epic dryRun none w
  · by_cases hn : epicNeedsPush w force epic = true
    · simpa [hn] using syncEpicPush_frame dbCfg epic dryRun (some st) w
    · simp [hn]

theorem syncStoryPush_frame (tc : TasksDbConfig) (story : Story)
    (epicPageId projectPageId : Option String) (dryRun : Bool)
    (state : Option DbSyncState) (w : World) :
    ((syncStoryPush tc story epicPageId projectPageId dryRun state w).2).failCreates
        = w.failCreates ∧
    ((syncStoryPush tc story epicPageId projectPageId dryRun state w).2).pages
        = w.pages ∧
    ∀ k, k ≠ story.key →
      lookup ((syncStoryPush tc story epicPageId projectPageId dryRun state w).2).dbs k
        = lookup w.dbs k := by
  rcases state with _ | st <;> simp only [syncStoryPush] <;> repeat' split
  all_goals
    first
      | exact ⟨rfl, rfl, fun _ _ => rfl⟩
      | (refine ⟨rfl, rfl, fun k hk => ?_⟩
         simp [lookup_upsert, Ne.symm hk])

theorem syncStory_frame (tc : TasksDbConfig) (story : Story)
    (epicPageId projectPageId : Option String) (force dryRun : Bool) (w : World) :
    ((syncStory tc story epicPageId projectPageId force dryRun w).2).failCreates
        = w.failCreates ∧
    ((syncStory tc story epicPageId projectPageId force dryRun w).2).pages = w.pages ∧
    ∀ k, k ≠ story.key →
      lookup ((syncStory tc story epicPageId projectPageId force dryRun w).2).dbs k
        = lookup w.dbs k := by
  rw [syncStory_eq]
  by_cases hn : storyNeedsPush w force story = true
  · simpa [hn] using
      syncStoryPush_frame tc story epicPageId projectPageId dryRun
        (lookup w.dbs story.key) w
  · simp [hn]

/-- Is this call a row-create against the given database? -/
def isCreateTo (databaseId : String) : RemoteCall → Bool
  | .createDbEntry d _ _ => d == databaseId
  | _ => false

/-- The remote calls `_sync_epic` can make: creates into the Sprints
database (carrying the epic's key in the key property) or row updates. -/
def epicEvent (dbCfg : DatabaseSyncConfig) (epic : Epic) (ev : RemoteCall) : Prop :=
  (∃ p r, ev = .createDbEntry (dbCfg.sprints.database_id.getD "") p r ∧
    p.keyProp.2 = epic.key) ∨
  (∃ pid p, ev = .updateDbEntry pid p)

/-- The remote calls `_sync_story` can make: creates into the Tasks database
(carrying the story's key in the key property), row updates, page clears and
block appends. -/
def storyEvent (tc : TasksDbConfig) (story : Story) (ev : RemoteCall) : Prop :=
  (∃ p r, ev = .createDbEntry (tc.database_id.getD "") p r ∧
    p.keyProp.2 = story.key) ∨
  (∃ pid p, ev = .updateDbEntry pid p) ∨
  (∃ pid, ev = .clearPage pid) ∨
  (∃ pid, ev = .appendBlocks pid)

theorem syncEpicPush_trace (dbCfg : DatabaseSyncConfig) (epic : Epic)
    (dryRun : Bool) (state : Option DbSyncState) (w : World) :
    ∃ t, ((syncEpicPush dbCfg epic dryRun state w).2).trace = t ++ w.trace ∧
      ∀ ev ∈ t, epicEvent dbCfg epic ev := by
  rcases state with _ | st <;> simp only [syncEpicPush] <;> repeat' split
  all_goals
    first
      | exact ⟨[], rfl, by simp⟩
      | (refine ⟨[_], rfl, ?_⟩
         intro ev hev
         simp only [List.mem_cons, List.not_mem_nil, or_false] at hev
         rcases hev with rfl <;> simp [epicEvent, epicProps])

theorem syncEpic_trace (dbCfg : DatabaseSyncConfig) (epic : Epic)
    (force dryRun : Bool) (w : World) :
    ∃ t, ((syncEpic dbCfg epic force dryRun w).2).trace = t ++ w.trace ∧
      ∀ ev ∈ t, epicEvent dbCfg epic ev := by
  rw [syncEpic_eq]
  rcases lookup w.dbs epic.key with _ | st
  · exact syncEpicPush_trace dbCfg epic dryRun none w
  · by_cases hn : epicNeedsPush w force epic = true
    · simpa [hn] using syncEpicPush_trace dbCfg epic dryRun (some st) w
    · exact ⟨[], by simp [hn]⟩

theorem syncStoryPush_trace (tc : TasksDbConfig) (story : Story)
    (epicPageId projectPageId : Option String) (dryRun : Bool)
    (state : Option DbSyncState) (w : World) :
    ∃ t, ((syncStoryPush tc story epicPageId projectPageId dryRun state w).2).trace
        = t ++ w.trace ∧
      ∀ ev ∈ t, storyEvent tc story ev := by
  rcases state with _ | st <;> simp only [syncStoryPush] <;> repeat' split
  all_goals
    first
      | exact ⟨[], rfl, by simp⟩
      | (refine ⟨[_], rfl, ?_⟩
         intro ev hev
         simp only [List.mem_cons, List.not_mem_nil, or_false] at hev
         rcases hev with rfl <;> simp [storyEvent, storyProps])
      | (refine ⟨[_, _], rfl, ?_⟩
         intro ev hev
         simp only [List.mem_cons, List.not_mem_nil, or_false] at hev
         rcases hev with rfl | rfl <;> simp [storyEvent, storyProps])
      | (refine ⟨[_, _, _], rfl, ?_⟩
         intro ev hev
         simp only [List.mem_cons, List.not_mem_nil, or_false] at hev
         rcases hev with rfl | rfl | rfl <;> simp [storyEvent, storyProps])

theorem syncStory_trace (tc : TasksDbConfig) (story : Story)
    (epicPageId projectPageId : Option String) (force dryRun : Bool) (w : World) :
    ∃ t, ((syncStory tc story epicPageId projectPageId force dryRun w).2).trace
        = t ++ w.trace ∧
      ∀ ev ∈ t, storyEvent tc story ev := by
  rw [syncStory_eq]
  by_cases hn : storyNeedsPush w force story = true
  · simpa [hn] using
      syncStoryPush_trace tc story epicPageId projectPageId dryRun
        (lookup w.dbs story.key) w
  · exact ⟨[], by simp [hn]⟩

/-! ## Loop-level lemmas -/

theorem pageSyncLoop_total (p : String) (force dryRun : Bool)
    (docs : List Document) :
    ∀ (acc : SyncResult) (w : World),
      (pageSyncLoop p force dryRun docs acc w).1.total = acc.total + docs.length ∧
      (pageSyncLoop p force dryRun docs acc w).1.errors.length + acc.failed =
        acc.errors.length + (pageSyncLoop p force dryRun docs acc w).1.failed ∧
      (pageSyncLoop p force dryRun docs acc w).1.failed ≥ acc.failed := by
  induction docs with
  | nil => intro acc w; simp [pageSyncLoop, SyncResult.total]
  | cons doc rest ih =>
    intro acc w
    simp only [pageSyncLoop]
    rcases hs : syncDocument doc p force dryRun w with ⟨r, w'⟩
    rcases r with e | a
    · have h := ih { acc with
        failed := acc.failed + 1,
        errors := acc.errors ++
          ["Failed to sync " ++ pathName doc.path ++ ": " ++ e] } w'
      simp only [SyncResult.total, List.length_append, List.length_singleton, List.length_cons, List.length_nil] at h ⊢
      omega
    · rcases a with _ | _ | _
      · have h := ih { acc with created := acc.created + 1 } w'
        simp only [SyncResult.total, List.length_cons] at h ⊢
        omega
      · have h := ih { acc with updated := acc.updated + 1 } w'
        simp only [SyncResult.total, List.length_cons] at h ⊢
        omega
      · have h := ih { acc with skipped := acc.skipped + 1 } w'
        simp only [SyncResult.total, List.length_cons] at h ⊢
        omega

theorem syncDocument_dry (doc : Document) (p : String) (force : Bool) (w : World) :
    syncDocument doc p force true w =
      ((if docNeedsPush w force doc then
          .ok (if docIsNew w doc then Action.created else Action.updated)
        else .ok .skipped), w) := by
  rcases h : lookup w.pages (pathName doc.path) with _ | st
  · simp [syncDocument, docNeedsPush, docIsNew, h]
  · rcases force with _ | _ <;>
      by_cases hh : st.content_hash = doc.content_hash <;>
      simp [syncDocument, docNeedsPush, docIsNew, h, hh]

theorem pageSyncLoop_dry (p : String) (force : Bool) (docs : List Document) :
    ∀ (acc : SyncResult) (w : World),
      (pageSyncLoop p force true docs acc w).2 = w ∧
      (pageSyncLoop p force true docs acc w).1.created =
        acc.created + docs.countP (fun d => docNeedsPush w force d && docIsNew w d) ∧
      (pageSyncLoop p force true docs acc w).1.updated =
        acc.updated + docs.countP (fun d => docNeedsPush w force d && !docIsNew w d) ∧
      (pageSyncLoop p force true docs acc w).1.skipped =
        acc.skipped + docs.countP (fun d => !docNeedsPush w force d) ∧
      (pageSyncLoop p force true docs acc w).1.failed = acc.failed ∧
      (pageSyncLoop p force true docs acc w).1.errors = acc.errors := by
  induction docs with
  | nil => intro acc w; simp [pageSyncLoop]
  | cons d rest ih =>
    intro acc w
    simp only [pageSyncLoop, syncDocument_dry]
    by_cases hn : docNeedsPush w force d = true
    · by_cases hi : docIsNew w d = true
      · have h := ih { acc with created := acc.created + 1 } w
        simp only [hn, hi, if_true, ite_true, List.countP_cons, hn, hi] at h ⊢
        simp only [Bool.and_self, Bool.not_true, Bool.and_false, Bool.and_true,
          Bool.not_eq_true] at h ⊢
        refine ⟨h.1, ?_, ?_, ?_, h.2.2.2.2⟩ <;> simp [h.2.1, h.2.2.1, h.2.2.2.1, hn, hi] <;> omega
      · have h := ih { acc with updated := acc.updated + 1 } w
        simp only [hn, hi, if_true, ite_true, ite_false, List.countP_cons,
          Bool.not_eq_true] at h ⊢
        refine ⟨h.1, ?_, ?_, ?_, h.2.2.2.2⟩ <;> simp [h.2.1, h.2.2.1, h.2.2.2.1, hn, hi] <;> omega
    · have h := ih { acc with skipped := acc.skipped + 1 } w
      simp only [hn, if_false, ite_false, List.countP_cons,
        Bool.not_eq_true] at h ⊢
      refine ⟨h.1, ?_, ?_, ?_, h.2.2.2.2⟩ <;> simp [h.2.1, h.2.2.1, h.2.2.2.1, hn] <;> omega

/-- An epic with no prior sync record. -/
def epicIsNew (w : World) (e : Epic) : Bool := (lookup w.dbs e.key).isNone

/-- A story with no prior sync record. -/
def storyIsNew (w : World) (s : Story) : Bool := (lookup w.dbs s.key).isNone

theorem syncEpicPush_dry (dbCfg : DatabaseSyncConfig) (e : Epic)
    (state : Option DbSyncState) (w : World) :
    syncEpicPush dbCfg e true state w =
      (.ok ((if state.isNone then Action.created else Action.updated),
        "dry-run-" ++ e.key), w) := by
  cases state <;> simp [syncEpicPush]

theorem syncEpic_dry (dbCfg : DatabaseSyncConfig) (e : Epic) (force : Bool)
    (w : World) :
    syncEpic dbCfg e force true w =
      ((match lookup w.dbs e.key with
        | some st =>
            if epicNeedsPush w force e then .ok (.updated, "dry-run-" ++ e.key)
            else .ok (.skipped, st.notion_page_id)
        | none => .ok (.created, "dry-run-" ++ e.key)), w) := by
  rw [syncEpic_eq]
  rcases lookup w.dbs e.key with _ | st
  · simp [syncEpicPush_dry]
  · by_cases hn : epicNeedsPush w force e = true <;> simp [hn, syncEpicPush_dry]

theorem syncStoryPush_dry (tc : TasksDbConfig) (s : Story)
    (epicPageId projectPageId : Option String) (state : Option DbSyncState)
    (w : World) :
    syncStoryPush tc s epicPageId projectPageId true state w =
      (.ok (if state.isNone then Action.created else Action.updated), w) := by
  cases state <;> simp [syncStoryPush]

theorem syncStory_dry (tc : TasksDbConfig) (s : Story)
    (epicPageId projectPageId : Option String) (force : Bool) (w : World) :
    syncStory tc s epicPageId projectPageId force true w =
      ((if storyNeedsPush w force s then
          .ok (if storyIsNew w s then Action.created else Action.updated)
        else .ok .skipped), w) := by
  rw [syncStory_eq]
  by_cases hn : storyNeedsPush w force s = true <;>
    simp [hn, syncStoryPush_dry, storyIsNew]

theorem epicLoop_dry (dbCfg : DatabaseSyncConfig) (force : Bool)
    (epics : List Epic) :
    ∀ (acc : DbSyncResult) (m : List (String × String)) (w : World),
      (epicLoop dbCfg force true epics acc m w).2.2 = w ∧
      (epicLoop dbCfg force true epics acc m w).1.epics_created =
        acc.epics_created + epics.countP (fun e => epicIsNew w e) ∧
      (epicLoop dbCfg force true epics acc m w).1.epics_updated =
        acc.epics_updated +
          epics.countP (fun e => !epicIsNew w e && epicNeedsPush w force e) ∧
      (epicLoop dbCfg force true epics acc m w).1.epics_skipped =
        acc.epics_skipped + epics.countP (fun e => !epicNeedsPush w force e) ∧
      (epicLoop dbCfg force true epics acc m w).1.epics_failed = acc.epics_failed ∧
      (epicLoop dbCfg force true epics acc m w).1.stories_created = acc.stories_created ∧
      (epicLoop dbCfg force true epics acc m w).1.stories_updated = acc.stories_updated ∧
      (epicLoop dbCfg force true epics acc m w).1.stories_skipped = acc.stories_skipped ∧
      (epicLoop dbCfg force true epics acc m w).1.stories_failed = acc.stories_failed ∧
      (epicLoop dbCfg force true epics acc m w).1.errors = acc.errors := by
  induction epics with
  | nil => intro acc m w; simp [epicLoop]
  | cons e rest ih =>
    intro acc m w
    simp only [epicLoop, syncEpic_dry]
    rcases hl : lookup w.dbs e.key with _ | st
    · have h := ih { acc with epics_created := acc.epics_created + 1 }
        (upsert m e.key ("dry-run-" ++ e.key)) w
      have hnew : epicIsNew w e = true := by simp [epicIsNew, hl]
      have hneed : epicNeedsPush w force e = true := by
        simp [epicNeedsPush, hl]
      simp only [List.countP_cons, hnew, hneed] at h ⊢
      simp only [Bool.not_true, Bool.false_and, Bool.and_self] at h ⊢
      refine ⟨h.1, ?_, ?_, ?_, h.2.2.2.2⟩ <;>
        simp [h.2.1, h.2.2.1, h.2.2.2.1] <;> omega
    · have hnew : epicIsNew w e = false := by simp [epicIsNew, hl]
      by_cases hn : epicNeedsPush w force e = true
      · have h := ih { acc with epics_updated := acc.epics_updated + 1 }
          (upsert m e.key ("dry-run-" ++ e.key)) w
        simp only [List.countP_cons, hnew, hn, if_true, ite_true] at h ⊢
        simp only [Bool.not_false, Bool.true_and, Bool.not_true] at h ⊢
        refine ⟨h.1, ?_, ?_, ?_, h.2.2.2.2⟩ <;>
          simp [h.2.1, h.2.2.1, h.2.2.2.1] <;> omega
      · have h := ih { acc with epics_skipped := acc.epics_skipped + 1 }
          (upsert m e.key st.notion_page_id) w
        simp only [List.countP_cons, hnew, hn, if_false, ite_false] at h ⊢
        simp only [Bool.not_false, Bool.true_and, Bool.not_eq_true] at h ⊢
        refine ⟨h.1, ?_, ?_, ?_, h.2.2.2.2⟩ <;>
          simp [h.2.1, h.2.2.1, h.2.2.2.1, hn] <;> omega

theorem storyLoop_dry (dbCfg : DatabaseSyncConfig) (projectPageId : Option String)
    (force : Bool) (m : List (String × String)) (stories : List Story) :
    ∀ (acc : DbSyncResult) (w : World),
      (storyLoop dbCfg projectPageId force true m stories acc w).2 = w ∧
      (storyLoop dbCfg projectPageId force true m stories acc w).1.stories_created =
        acc.stories_created +
          stories.countP (fun s => storyNeedsPush w force s && storyIsNew w s) ∧
      (storyLoop dbCfg projectPageId force true m stories acc w).1.stories_updated =
        acc.stories_updated +
          stories.countP (fun s => storyNeedsPush w force s && !storyIsNew w s) ∧
      (storyLoop dbCfg projectPageId force true m stories acc w).1.stories_skipped =
        acc.stories_skipped + stories.countP (fun s => !storyNeedsPush w force s) ∧
      (storyLoop dbCfg projectPageId force true m stories acc w).1.stories_failed =
        acc.stories_failed ∧
      (storyLoop dbCfg projectPageId force true m stories acc w).1.epics_created =
        acc.epics_created ∧
      (storyLoop dbCfg projectPageId force true m stories acc w).1.epics_updated =
        acc.epics_updated ∧
      (storyLoop dbCfg projectPageId force true m stories acc w).1.epics_skipped =
        acc.epics_skipped ∧
      (storyLoop dbCfg projectPageId force true m stories acc w).1.epics_failed =
        acc.epics_failed ∧
      (storyLoop dbCfg projectPageId force true m stories acc w).1.errors =
        acc.errors := by
  induction stories with
  | nil => intro acc w; simp [storyLoop]
  | cons s rest ih =>
    intro acc w
    simp only [storyLoop, syncStory_dry]
    by_cases hn : storyNeedsPush w force s = true
    · by_cases hi : storyIsNew w s = true
      · have h := ih { acc with stories_created := acc.stories_created + 1 } w
        simp only [List.countP_cons, hn, hi, if_true, ite_true,
          Bool.and_self, Bool.not_true, Bool.and_false, Bool.not_eq_true] at h ⊢
        refine ⟨h.1, ?_, ?_, ?_, h.2.2.2.2⟩ <;>
          simp [h.2.1, h.2.2.1, h.2.2.2.1, hn, hi] <;> omega
      · have h := ih { acc with stories_updated := acc.stories_updated + 1 } w
        simp only [List.countP_cons, hn, hi, if_true, ite_true, ite_false,
          Bool.not_eq_true] at h ⊢
        refine ⟨h.1, ?_, ?_, ?_, h.2.2.2.2⟩ <;>
          simp [h.2.1, h.2.2.1, h.2.2.2.1, hn, hi] <;> omega
    · have h := ih { acc with stories_skipped := acc.stories_skipped + 1 } w
      simp only [List.countP_cons, hn, if_false, ite_false,
        Bool.not_eq_true] at h ⊢
      refine ⟨h.1, ?_, ?_, ?_, h.2.2.2.2⟩ <;>
        simp [h.2.1, h.2.2.1, h.2.2.2.1, hn] <;> omega

theorem pageSyncLoop_dry_eq (p : String) (force : Bool) (docs : List Document)
    (w : World) :
    pageSyncLoop p force true docs {} w =
      ({ created := docs.countP (fun d => docNeedsPush w force d && docIsNew w d),
         updated := docs.countP (fun d => docNeedsPush w force d && !docIsNew w d),
         skipped := docs.countP (fun d => !docNeedsPush w force d) }, w) := by
  have h := pageSyncLoop_dry p force docs {} w
  rcases hR : pageSyncLoop p force true docs {} w with ⟨acc, w'⟩
  rw [hR] at h
  obtain ⟨hw, h1, h2, h3, h4, h5⟩ := h
  subst hw
  cases acc
  simp_all [SyncResult.mk.injEq]

theorem dbSyncCore_dry (dbCfg : DatabaseSyncConfig) (epics : List Epic)
    (stories : List Story) (force : Bool) (projId : Option String) (w : World) :
    dbSyncCore dbCfg epics stories force true projId w =
      ({ epics_created := epics.countP (fun e => epicIsNew w e),
         epics_updated := epics.countP (fun e => !epicIsNew w e && epicNeedsPush w force e),
         epics_skipped := epics.countP (fun e => !epicNeedsPush w force e),
         stories_created := stories.countP (fun s => storyNeedsPush w force s && storyIsNew w s),
         stories_updated := stories.countP (fun s => storyNeedsPush w force s && !storyIsNew w s),
         stories_skipped := stories.countP (fun s => !storyNeedsPush w force s) }, w) := by
  simp only [dbSyncCore]
  rcases hE : epicLoop dbCfg force true epics {} [] w with ⟨accE, mE, wE⟩
  have he := epicLoop_dry dbCfg force epics {} [] w
  rw [hE] at he
  simp only at he
  obtain ⟨hw, he1, he2, he3, he4, he5, he6, he7, he8, he9⟩ := he
  rcases hS : storyLoop dbCfg projId force true mE stories accE wE with ⟨accS, wS⟩
  have hs := storyLoop_dry dbCfg projId force mE stories accE wE
  rw [hS] at hs
  simp only at hs
  obtain ⟨hw2, hs1, hs2, hs3, hs4, hs5, hs6, hs7, hs8, hs9⟩ := hs
  subst hw2
  subst hw
  cases accS
  simp_all [DbSyncResult.mk.injEq, Prod.mk.injEq]

theorem getOrCreateProject_dry_world (cfg : Config) (w : World) :
    (getOrCreateProject cfg true w).2 = w := by
  simp only [getOrCreateProject]
  repeat' split
  all_goals first | rfl | simp_all

theorem pageSync_dry_world (cfg : Config) (fs : FS) (force : Bool)
    (pp fp : Option String) (w : World) :
    (pageSync cfg fs force true pp fp w).2 = w := by
  simp only [pageSync]
  repeat' split
  all_goals
    first
      | rfl
      | exact (pageSyncLoop_dry _ _ _ _ _).1

theorem dbSync_dry_world (cfg : Config) (fs : FS) (force : Bool)
    (pp fk : Option String) (w : World) (r : DbSyncResult) (w' : World)
    (h : dbSync cfg fs force true pp fk w = .ok (r, w')) : w' = w := by
  simp only [dbSync] at h
  split at h
  · simp only [Except.ok.injEq, Prod.mk.injEq] at h
    exact h.2.symm
  · split at h
    · simp at h
    · rw [dbSyncCore_dry] at h
      simp only [Except.ok.injEq, Prod.mk.injEq] at h
      exact h.2.symm

/-- C9: when the corresponding engine is disabled in configuration, `sync`
returns immediately with an all-zero, error-free result, performing no
remote calls, no sync-state writes and (for database sync) not even the
ledger scan — the world is returned unchanged even when the ledger file is
absent. -/
theorem spec_C9 (cfg : Config) (fs : FS) (force dryRun : Bool)
    (pp fp fk : Option String) (w : World) :
    pageSync { cfg with page_sync := { cfg.page_sync with enabled := false } }
        fs force dryRun pp fp w = ({}, w) ∧
    dbSync { cfg with database_sync := { cfg.database_sync with enabled := false } }
        fs force dryRun pp fk w = .ok ({}, w) := by
  constructor <;> simp [pageSync, dbSync]

/-- C10: every `PageSyncEngine.sync` call that reaches the per-document loop
tallies each document in exactly one of the four counters — the result's
`total` equals the number of documents processed — and the error list has
exactly one entry per failed document. -/
theorem spec_C10 (p : String) (force dryRun : Bool) (docs : List Document)
    (w : World) :
    (pageSyncLoop p force dryRun docs {} w).1.total = docs.length ∧
    (pageSyncLoop p force dryRun docs {} w).1.errors.length =
      (pageSyncLoop p force dryRun docs {} w).1.failed := by
  have h := pageSyncLoop_total p force dryRun docs {} w
  simp only [SyncResult.total] at h ⊢
  try simp only [List.length_nil] at h
  omega

/-- C2: with `dry_run=true`, page sync, database sync and project resolution
mutate no sync record and invoke no remote operation (the world — store
tables, remote trace, id supply — is returned unchanged), while the reported
result still classifies each needs-push item as created (no prior record) or
updated (prior record). -/
theorem spec_C2 :
    (∀ (cfg : Config) (fs : FS) (force : Bool) (pp fp : Option String) (w : World),
       (pageSync cfg fs force true pp fp w).2 = w) ∧
    (∀ (p : String) (force : Bool) (docs : List Document) (w : World),
       pageSyncLoop p force true docs {} w =
         ({ created := docs.countP (fun d => docNeedsPush w force d && docIsNew w d),
            updated := docs.countP (fun d => docNeedsPush w force d && !docIsNew w d),
            skipped := docs.countP (fun d => !docNeedsPush w force d) }, w)) ∧
    (∀ (cfg : Config) (fs : FS) (force : Bool) (pp fk : Option String) (w : World)
       (r : DbSyncResult) (w' : World),
       dbSync cfg fs force true pp fk w = .ok (r, w') → w' = w) ∧
    (∀ (dbCfg : DatabaseSyncConfig) (epics : List Epic) (stories : List Story)
       (force : Bool) (projId : Option String) (w : World),
       dbSyncCore dbCfg epics stories force true projId w =
         ({ epics_created := epics.countP (fun e => epicIsNew w e),
            epics_updated := epics.countP (fun e => !epicIsNew w e && epicNeedsPush w force e),
            epics_skipped := epics.countP (fun e => !epicNeedsPush w force e),
            stories_created := stories.countP (fun s => storyNeedsPush w force s && storyIsNew w s),
            stories_updated := stories.countP (fun s => storyNeedsPush w force s && !storyIsNew w s),
            stories_skipped := stories.countP (fun s => !storyNeedsPush w force s) }, w)) ∧
    (∀ (cfg : Config) (w : World), (getOrCreateProject cfg true w).2 = w) :=
  ⟨pageSync_dry_world, pageSyncLoop_dry_eq, dbSync_dry_world, dbSyncCore_dry,
   getOrCreateProject_dry_world⟩

/-! ## C7: the concrete ledger scenario -/

/-- Paths for the concrete scan scenario. -/
def c7Paths : PathsConfig := ⟨"planning", "impl", "impl/sprint-status.yaml"⟩

/-- The concrete scenario's filesystem: the four-entry ledger and a backing
file only for story `1-1-x` (with arbitrary content and mtime). -/
def c7FS (c : String) (mt : Int) : FS :=
  ⟨[("impl/1-1-x.md", ⟨c, mt⟩)],
   some [("epic-1", "in-progress"), ("1-1-x", "done"),
         ("epic-2", "backlog"), ("2-1-y", "backlog")]⟩

theorem c7scan (c : String) (mt : Int) :
    scanSprintStatus (c7FS c mt) c7Paths =
      .ok ([⟨"epic-1", "Epic 1", "in-progress", none, none⟩,
            ⟨"epic-2", "Epic 2", "backlog", none, none⟩],
           [⟨"1-1-x", "epic-1", extractTitle c (pyTitle "x"), "done",
             some "impl/1-1-x.md", some mt, some c⟩,
            ⟨"2-1-y", "epic-2", pyTitle "y", "backlog", none, none, none⟩]) := by
  rfl

/-- C7: scanning the ledger `{epic-1: in-progress, 1-1-x: done,
epic-2: backlog, 2-1-y: backlog}` with a backing file only for `1-1-x`
yields exactly 2 epics and 2 stories; `2-1-y` has null content, null
file_path and null content fingerprint; `1-1-x` has a non-null content
fingerprint and parent epic key `epic-1` (the most recently seen epic in
ledger order). -/
theorem spec_C7 (c : String) (mt : Int) :
    ∃ (epics : List Epic) (s1 s2 : Story),
      scanSprintStatus (c7FS c mt) c7Paths = .ok (epics, [s1, s2]) ∧
      epics.length = 2 ∧
      s1.key = "1-1-x" ∧ s1.epic_key = "epic-1" ∧
      s1.content_hash ≠ none ∧ s1.file_path = some "impl/1-1-x.md" ∧
      s2.key = "2-1-y" ∧ s2.content = none ∧ s2.file_path = none ∧
      s2.content_hash = none := by
  refine ⟨_, _, _, c7scan c mt, rfl, rfl, rfl, ?_, rfl, rfl, rfl, rfl, rfl⟩
  simp [Story.content_hash]

/-! ## C3: project resolution and the configuration check -/

/-- A configuration whose Projects database_id is not configured. -/
def cexCfgC3 : Config :=
  { project := "p",
    paths := ⟨"planning", "impl", "impl/sprint-status.yaml"⟩,
    page_sync := {},
    database_sync :=
      { projects := { database_id := none },
        sprints := { database_id := some "sdb", name_property := "Name",
                     status_property := "Status", status_mapping := [] },
        tasks := { database_id := some "tdb", name_property := "Name",
                   status_property := "Status", require_story_file := false,
                   status_mapping := [] } } }

/-- A sync store that already holds a record under `project:p`. -/
def cexWorldC3 : World :=
  { dbs := [("project:p", ⟨"project:p", "project", "cached-1", none, none⟩)] }

/-- C3 counterexample: the store already contains a SyncRecord under the
project's namespaced key, yet `get_or_create_project` raises the
missing-database_id configuration error instead of returning the cached
remote id: the record short-circuit is not the first check. -/
theorem spec_C3_counterexample :
    lookup cexWorldC3.dbs ("project:" ++ cexCfgC3.project) ≠ none ∧
    getOrCreateProject cexCfgC3 false cexWorldC3 =
      (.error "Projects database_id not configured", cexWorldC3) := by
  constructor
  · decide
  · rfl

/-- C3 (amended): the Projects database_id configuration check runs first;
once it passes, a pre-existing SyncRecord under the project's namespaced key
short-circuits `get_or_create_project` — it returns the record's remote id
with was_created=false, makes no remote calls, writes no state, raises no
error, and does so before the dry-run check and the remote lookup. -/
theorem spec_C3 (cfg : Config) (dryRun : Bool) (w : World) (st : DbSyncState)
    (hdb : cfg.database_sync.projects.database_id.getD "" ≠ "")
    (hrec : lookup w.dbs ("project:" ++ cfg.project) = some st) :
    getOrCreateProject cfg dryRun w = (.ok (st.notion_page_id, false), w) := by
  simp [getOrCreateProject, hdb, hrec]

/-- Witness configuration for the amended C3. -/
def witCfgC3 : Config :=
  { cexCfgC3 with
      database_sync :=
        { cexCfgC3.database_sync with projects := { database_id := some "pdb" } } }

theorem spec_C3_witness :
    (witCfgC3.database_sync.projects.database_id.getD "" ≠ "" ∧
     lookup cexWorldC3.dbs ("project:" ++ witCfgC3.project) =
       some ⟨"project:p", "project", "cached-1", none, none⟩) ∧
    getOrCreateProject witCfgC3 false cexWorldC3 =
      (.ok ("cached-1", false), cexWorldC3) :=
  ⟨⟨by decide, by decide⟩,
   spec_C3 witCfgC3 false cexWorldC3 ⟨"project:p", "project", "cached-1", none, none⟩
     (by decide) (by decide)⟩

/-! ## C8: page sync record keying -/

/-- A configured document under a `specs/` subdirectory. -/
def c8DocA : Document := ⟨"planning/specs/doc.md", "A", "contentA", 1⟩

/-- A distinct configured document with the same filename under `notes/`. -/
def c8DocB : Document := ⟨"planning/notes/doc.md", "B", "contentB", 2⟩

/-- C8 (code bug): `_sync_document` keys the SyncRecord by `doc.path.name`
(the basename) rather than the path relative to the planning-artifacts root:
two distinct configured documents with the same filename in different
subdirectories share one record key.  On a fresh store, syncing both leaves
a single record under `doc.md` holding the second document's fingerprint but
the first document's remote page id — only one remote page is ever created
(the id supply advanced once) and the second document was classified as an
update of the first document's page. -/
theorem spec_C8 :
    pathName c8DocA.path = pathName c8DocB.path ∧
    lookup ((pageSyncLoop "parent" false false [c8DocA, c8DocB] {} {}).2).pages
        (pathName c8DocA.path) =
      some ⟨"doc.md", "page-0", 2, "md5:contentB"⟩ ∧
    ((pageSyncLoop "parent" false false [c8DocA, c8DocB] {} {}).2).nextId = 1 ∧
    (pageSyncLoop "parent" false false [c8DocA, c8DocB] {} {}).1 =
      { created := 1, updated := 1 } := by
  refine ⟨rfl, ?_, rfl, rfl⟩
  rfl

/-! ## C1: change detection and second-run idempotence -/

/-- The world `_sync_document`'s create path produces. -/
def docCreateWorld (doc : Document) (parentPageId : String) (w : World) : World :=
  let blocks := markdownToBlocks doc.content
  let localPath := pathName doc.path
  let pageId := w.freshId
  let w1 : World :=
    { w with
        trace := .createChildPage parentPageId doc.title (!blocks.isEmpty) pageId :: w.trace,
        nextId := w.nextId + 1 }
  let w2 : World :=
    { w1 with pages := upsert w1.pages localPath ⟨localPath, pageId, doc.mtime, doc.content_hash⟩ }
  if blocks.length > 100 then { w2 with trace := .appendBatches pageId :: w2.trace }
  else w2

/-- The world `_sync_document`'s update path produces. -/
def docUpdateWorld (doc : Document) (st : PageSyncState) (w : World) : World :=
  let blocks := markdownToBlocks doc.content
  let localPath := pathName doc.path
  let pageId := st.notion_page_id
  let w1 : World := { w with trace := .clearPage pageId :: w.trace }
  let w2 : World :=
    if !blocks.isEmpty then { w1 with trace := .appendBatches pageId :: w1.trace }
    else w1
  { w2 with pages := upsert w2.pages localPath ⟨localPath, pageId, doc.mtime, doc.content_hash⟩ }

theorem syncDocument_eq (doc : Document) (p : String) (force dryRun : Bool)
    (w : World) :
    syncDocument doc p force dryRun w =
      if docNeedsPush w force doc then
        match lookup w.pages (pathName doc.path) with
        | none =>
            if dryRun then (.ok .created, w)
            else if doc.title ∈ w.failCreates then (.error createFailMsg, w)
            else (.ok .created, docCreateWorld doc p w)
        | some st =>
            if dryRun then (.ok .updated, w)
            else (.ok .updated, docUpdateWorld doc st w)
      else (.ok .skipped, w) := by
  rcases hl : lookup w.pages (pathName doc.path) with _ | st
  · simp [syncDocument, docNeedsPush, docCreateWorld, hl]
  · rcases force with _ | _ <;>
      by_cases hh : (st.content_hash != doc.content_hash) = true <;>
      simp_all [syncDocument, docNeedsPush, docUpdateWorld, hl]

theorem docCreateWorld_frame (doc : Document) (p : String) (w : World) :
    (docCreateWorld doc p w).failCreates = w.failCreates ∧
    lookup (docCreateWorld doc p w).pages (pathName doc.path) =
      some ⟨pathName doc.path, w.freshId, doc.mtime, doc.content_hash⟩ := by
  simp only [docCreateWorld]
  split <;> simp [lookup_upsert_self]

theorem docUpdateWorld_frame (doc : Document) (st : PageSyncState) (w : World) :
    (docUpdateWorld doc st w).failCreates = w.failCreates ∧
    lookup (docUpdateWorld doc st w).pages (pathName doc.path) =
      some ⟨pathName doc.path, st.notion_page_id, doc.mtime, doc.content_hash⟩ := by
  simp only [docUpdateWorld]
  split <;> simp [lookup_upsert_self]

/-- After a non-dry `_sync_document` whose create did not raise, the
document's record exists and carries the document's fingerprint. -/
theorem syncDocument_post (doc : Document) (p : String) (force : Bool) (w : World)
    (hnf : doc.title ∉ w.failCreates) :
    ∃ st, lookup ((syncDocument doc p force false w).2).pages (pathName doc.path) =
        some st ∧ st.content_hash = doc.content_hash := by
  rw [syncDocument_eq]
  by_cases hn : docNeedsPush w force doc = true
  · simp only [hn, if_true, ite_true]
    rcases hl : lookup w.pages (pathName doc.path) with _ | st
    · simp only [Bool.false_eq_true, if_false, ite_false, hnf]
      exact ⟨_, (docCreateWorld_frame doc p w).2, rfl⟩
    · simp only [Bool.false_eq_true, if_false, ite_false]
      exact ⟨_, (docUpdateWorld_frame doc st w).2, rfl⟩
  · simp only [hn]
    rcases hl : lookup w.pages (pathName doc.path) with _ | st
    · simp [docNeedsPush, hl] at hn
    · refine ⟨st, by simpa using hl, ?_⟩
      simp only [docNeedsPush, hl, Bool.or_eq_true, not_or, Bool.not_eq_true] at hn
      rcases hn with ⟨-, hn⟩
      simpa [bne] using hn

/-- A document that does not need pushing is skipped with no world change. -/
theorem syncDocument_skip (doc : Document) (p : String) (force dryRun : Bool)
    (w : World) (h : docNeedsPush w force doc = false) :
    syncDocument doc p force dryRun w = (.ok .skipped, w) := by
  rw [syncDocument_eq, h]
  simp

/-- A document that needs pushing is never reported skipped. -/
theorem syncDocument_push_not_skip (doc : Document) (p : String)
    (force dryRun : Bool) (w : World) (h : docNeedsPush w force doc = true) :
    (syncDocument doc p force dryRun w).1 ≠ .ok .skipped := by
  rw [syncDocument_eq, h]
  rcases lookup w.pages (pathName doc.path) with _ | st <;>
    simp only [if_true, ite_true] <;> repeat' split
  all_goals simp

theorem pageSyncLoop_frame (p : String) (force dryRun : Bool)
    (docs : List Document) :
    ∀ (acc : SyncResult) (w : World),
      ((pageSyncLoop p force dryRun docs acc w).2).failCreates = w.failCreates ∧
      ∀ k, k ∉ docs.map (fun d => pathName d.path) →
        lookup ((pageSyncLoop p force dryRun docs acc w).2).pages k =
          lookup w.pages k := by
  induction docs with
  | nil => intro acc w; simp [pageSyncLoop]
  | cons d rest ih =>
    intro acc w
    simp only [pageSyncLoop]
    rcases hs : syncDocument d p force dryRun w with ⟨r, w'⟩
    have hf := syncDocument_frame d p force dryRun w
    rw [hs] at hf
    obtain ⟨hf1, -, hf3⟩ := hf
    have step : ∀ (acc' : SyncResult),
        ((pageSyncLoop p force dryRun rest acc' w').2).failCreates = w.failCreates ∧
        ∀ k, k ∉ (d :: rest).map (fun d => pathName d.path) →
          lookup ((pageSyncLoop p force dryRun rest acc' w').2).pages k =
            lookup w.pages k := by
      intro acc'
      obtain ⟨h1, h2⟩ := ih acc' w'
      refine ⟨h1.trans hf1, fun k hk => ?_⟩
      simp only [List.map_cons, List.mem_cons, not_or] at hk
      exact (h2 k hk.2).trans (hf3 k hk.1)
    rcases r with e | a
    · exact step _
    · rcases a <;> exact step _

/-- After a real (non-dry) run in which no document's create raised, every
processed document has a record carrying its fingerprint — provided the
documents' filenames are pairwise distinct. -/
theorem pageSyncLoop_post (p : String) (force : Bool) (docs : List Document) :
    ∀ (acc : SyncResult) (w : World),
      (docs.map (fun d => pathName d.path)).Nodup →
      (∀ d ∈ docs, d.title ∉ w.failCreates) →
      ∀ d ∈ docs,
        ∃ st, lookup ((pageSyncLoop p force false docs acc w).2).pages
            (pathName d.path) = some st ∧ st.content_hash = d.content_hash := by
  induction docs with
  | nil => intro acc w _ _ d hd; cases hd
  | cons d0 rest ih =>
    intro acc w hnodup hnofail d hd
    simp only [List.map_cons, List.nodup_cons] at hnodup
    simp only [pageSyncLoop]
    rcases hs : syncDocument d0 p force false w with ⟨r, w'⟩
    have hf := syncDocument_frame d0 p force false w
    rw [hs] at hf
    obtain ⟨hf1, -, hf3⟩ := hf
    have hnofail' : ∀ e ∈ rest, e.title ∉ w'.failCreates := by
      intro e he
      rw [hf1]
      exact hnofail e (List.mem_cons_of_mem _ he)
    have hpost := syncDocument_post d0 p force w (hnofail d0 (List.mem_cons_self _ _))
    rw [hs] at hpost
    have step : ∀ (acc' : SyncResult),
        ∃ st, lookup ((pageSyncLoop p force false rest acc' w').2).pages
            (pathName d.path) = some st ∧ st.content_hash = d.content_hash := by
      intro acc'
      rcases List.mem_cons.mp hd with hd | hd
      · subst hd
        obtain ⟨st, hst, hh⟩ := hpost
        obtain ⟨-, hlk⟩ := pageSyncLoop_frame p force false rest acc' w'
        refine ⟨st, ?_, hh⟩
        rw [hlk _ ?_, hst]
        intro hc
        simp only [List.mem_map] at hc
        obtain ⟨e, he, hke⟩ := hc
        exact hnodup.1 (by simpa [hke] using List.mem_map_of_mem (fun d => pathName d.path) he)
      · exact ih acc' w' hnodup.2 hnofail' d hd
    rcases r with e | a
    · exact step _
    · rcases a <;> exact step _

/-- If every document already has a record with a matching fingerprint, a
run with `force=false` skips everything and leaves the world untouched. -/
theorem pageSyncLoop_all_match (p : String) (dryRun : Bool)
    (docs : List Document) :
    ∀ (acc : SyncResult) (w : World),
      (∀ d ∈ docs, ∃ st, lookup w.pages (pathName d.path) = some st ∧
        st.content_hash = d.content_hash) →
      pageSyncLoop p false dryRun docs acc w =
        ({ acc with skipped := acc.skipped + docs.length }, w) := by
  induction docs with
  | nil => intro acc w _; simp [pageSyncLoop]
  | cons d rest ih =>
    intro acc w hall
    obtain ⟨st, hst, hh⟩ := hall d (List.mem_cons_self _ _)
    have hskip : docNeedsPush w false d = false := by
      simp [docNeedsPush, hst, hh]
    simp only [pageSyncLoop, syncDocument_skip d p false dryRun w hskip]
    rw [ih { acc with skipped := acc.skipped + 1 } w
      (fun e he => hall e (List.mem_cons_of_mem _ he))]
    simp only [List.length_cons, Prod.mk.injEq, SyncResult.mk.injEq,
      and_true, true_and]
    omega

/-- C1 (amended): `_sync_document` pushes iff force is set, or no SyncRecord
exists, or the stored fingerprint differs from the document's fingerprint;
when none of these holds the document is reported skipped with no remote
call and no state write (the world is returned unchanged).  Hence — provided
the scanned documents have pairwise distinct filenames (the record key is
the basename, see the C8 finding) and no create raised in the first run — a
second run over the same documents with force=false reports every document
skipped, with zero creates, zero updates, and an unchanged world. -/
theorem spec_C1 (p : String) (force1 : Bool) (docs : List Document) (w : World)
    (hnodup : (docs.map (fun d => pathName d.path)).Nodup)
    (hnofail : ∀ d ∈ docs, d.title ∉ w.failCreates) :
    (∀ (d : Document) (q : String) (f dr : Bool) (v : World),
       syncDocument d q f dr v = (.ok .skipped, v) ↔ docNeedsPush v f d = false) ∧
    pageSyncLoop p false false docs {} (pageSyncLoop p force1 false docs {} w).2 =
      ({ skipped := docs.length },
       (pageSyncLoop p force1 false docs {} w).2) := by
  constructor
  · intro d q f dr v
    constructor
    · intro h
      by_contra hc
      have ht : docNeedsPush v f d = true := by
        cases hb : docNeedsPush v f d
        · exact absurd hb hc
        · rfl
      exact syncDocument_push_not_skip d q f dr v ht (by rw [h])
    · intro h
      exact syncDocument_skip d q f dr v h
  · have hpost := pageSyncLoop_post p force1 docs {} w hnodup hnofail
    have hrun := pageSyncLoop_all_match p false docs {}
      (pageSyncLoop p force1 false docs {} w).2 hpost
    simpa using hrun

/-- C1 counterexample: two scanned documents share a filename in different
subdirectories with different contents.  The local content is identical
across the two runs and force=false, yet the second run reports 2 updates
and 0 skips — the claimed all-skipped second run fails without the
distinct-filename proviso. -/
theorem spec_C1_counterexample :
    (pageSyncLoop "parent" false false [c8DocA, c8DocB] {}
        (pageSyncLoop "parent" false false [c8DocA, c8DocB] {} {}).2).1.updated = 2 ∧
    (pageSyncLoop "parent" false false [c8DocA, c8DocB] {}
        (pageSyncLoop "parent" false false [c8DocA, c8DocB] {} {}).2).1.skipped = 0 := by
  constructor <;> rfl

/-- Witness documents for the amended C1. -/
def witDocsC1 : List Document :=
  [⟨"planning/prd.md", "PRD - demo", "hello", 5⟩,
   ⟨"planning/architecture.md", "Architecture - demo", "world", 6⟩]

theorem spec_C1_witness :
    ((witDocsC1.map (fun d => pathName d.path)).Nodup ∧
      ∀ d ∈ witDocsC1, d.title ∉ ({} : World).failCreates) ∧
    ((∀ (d : Document) (q : String) (f dr : Bool) (v : World),
        syncDocument d q f dr v = (.ok .skipped, v) ↔ docNeedsPush v f d = false) ∧
      pageSyncLoop "par" false false witDocsC1 {}
          (pageSyncLoop "par" false false witDocsC1 {} {}).2 =
        ({ skipped := witDocsC1.length },
         (pageSyncLoop "par" false false witDocsC1 {} {}).2)) :=
  ⟨⟨by decide, by decide⟩, spec_C1 "par" false witDocsC1 {} (by decide) (by decide)⟩

/-! ## C5: per-item failure isolation in database sync -/

/-- A story whose processing raises under the failure-injecting client: it
has no prior record (so a create is attempted) and its key is listed among
the failing creates. -/
def storyFails (w : World) (s : Story) : Bool :=
  (lookup w.dbs s.key).isNone && decide (s.key ∈ w.failCreates)

theorem storyNeedsPush_of_new (w : World) (force : Bool) (s : Story)
    (hl : lookup w.dbs s.key = none) : storyNeedsPush w force s = true := by
  simp [storyNeedsPush, hl]

/-- A failing story's step: the caught exception, and no world change. -/
theorem syncStory_fail_step (tc : TasksDbConfig) (s : Story)
    (epicPageId projectPageId : Option String) (force : Bool) (w : World)
    (hdb : tc.database_id.getD "" ≠ "")
    (hf : storyFails w s = true) :
    syncStory tc s epicPageId projectPageId force false w =
      (.error createFailMsg, w) := by
  simp only [storyFails, Bool.and_eq_true, Option.isNone_iff_eq_none,
    decide_eq_true_eq] at hf
  obtain ⟨hl, hm⟩ := hf
  rw [syncStory_eq, storyNeedsPush_of_new w force s hl]
  simp [syncStoryPush, hl, hdb, hm]

/-- A non-failing story's step returns an action, not an exception. -/
theorem syncStory_ok_step (tc : TasksDbConfig) (s : Story)
    (epicPageId projectPageId : Option String) (force : Bool) (w : World)
    (hdb : tc.database_id.getD "" ≠ "")
    (hf : storyFails w s = false) :
    ∃ a w', syncStory tc s epicPageId projectPageId force false w = (.ok a, w') := by
  rw [syncStory_eq]
  by_cases hn : storyNeedsPush w force s = true
  · simp only [hn, if_true, ite_true]
    rcases hl : lookup w.dbs s.key with _ | st
    · have hm : s.key ∉ w.failCreates := by
        simp only [storyFails, hl, Option.isNone_none, Bool.true_and,
          decide_eq_false_iff_not] at hf
        exact hf
      simp only [syncStoryPush, Bool.false_eq_true, if_false, ite_false, hdb, hm]
      exact ⟨_, _, rfl⟩
    · simp only [syncStoryPush, Bool.false_eq_true, if_false, ite_false, hdb]
      exact ⟨_, _, rfl⟩
  · simp [hn]

/-- `storyFails` only depends on the story's key, the record table at that
key, and the failure list — all preserved across other stories' steps. -/
theorem storyFails_preserved (tc : TasksDbConfig) (t s : Story)
    (epicPageId projectPageId : Option String) (force dryRun : Bool) (w : World)
    (hne : s.key ≠ t.key) :
    storyFails ((syncStory tc t epicPageId projectPageId force dryRun w).2) s =
      storyFails w s := by
  obtain ⟨h1, -, h3⟩ := syncStory_frame tc t epicPageId projectPageId force dryRun w
  simp [storyFails, h1, h3 s.key hne]

theorem storyLoop_no_fail (dbCfg : DatabaseSyncConfig) (projId : Option String)
    (force : Bool) (m : List (String × String)) (stories : List Story)
    (hdb : dbCfg.tasks.database_id.getD "" ≠ "") :
    ∀ (acc : DbSyncResult) (w : World),
      (stories.map Story.key).Nodup →
      (∀ t ∈ stories, storyFails w t = false) →
      (storyLoop dbCfg projId force false m stories acc w).1.stories_failed =
        acc.stories_failed ∧
      (storyLoop dbCfg projId force false m stories acc w).1.stories_created +
        (storyLoop dbCfg projId force false m stories acc w).1.stories_updated +
        (storyLoop dbCfg projId force false m stories acc w).1.stories_skipped =
        acc.stories_created + acc.stories_updated + acc.stories_skipped +
          stories.length ∧
      (storyLoop dbCfg projId force false m stories acc w).1.errors = acc.errors := by
  induction stories with
  | nil => intro acc w _ _; simp [storyLoop]
  | cons t rest ih =>
    intro acc w hnodup hok
    simp only [List.map_cons, List.nodup_cons] at hnodup
    obtain ⟨a, w', hstep⟩ :=
      syncStory_ok_step dbCfg.tasks t (lookup m t.epic_key) projId force w hdb
        (hok t (List.mem_cons_self _ _))
    have hok' : ∀ t' ∈ rest, storyFails w' t' = false := by
      intro t' ht'
      have hne : t'.key ≠ t.key := by
        intro hc
        exact hnodup.1 (by simpa [hc] using List.mem_map_of_mem Story.key ht')
      calc storyFails w' t' =
          storyFails ((syncStory dbCfg.tasks t (lookup m t.epic_key) projId
            force false w).2) t' := by rw [hstep]
        _ = storyFails w t' :=
            storyFails_preserved dbCfg.tasks t t' _ _ _ _ w hne
        _ = false := hok t' (List.mem_cons_of_mem _ ht')
    simp only [storyLoop, hstep]
    rcases a with _ | _ | _
    · have h := ih { acc with stories_created := acc.stories_created + 1 } w'
        hnodup.2 hok'
      simp only [List.length_cons] at h ⊢
      exact ⟨h.1, by omega, h.2.2⟩
    · have h := ih { acc with stories_updated := acc.stories_updated + 1 } w'
        hnodup.2 hok'
      simp only [List.length_cons] at h ⊢
      exact ⟨h.1, by omega, h.2.2⟩
    · have h := ih { acc with stories_skipped := acc.stories_skipped + 1 } w'
        hnodup.2 hok'
      simp only [List.length_cons] at h ⊢
      exact ⟨h.1, by omega, h.2.2⟩

theorem storyLoop_one_fail (dbCfg : DatabaseSyncConfig) (projId : Option String)
    (force : Bool) (m : List (String × String)) (stories : List Story) (s : Story)
    (hdb : dbCfg.tasks.database_id.getD "" ≠ "") :
    ∀ (acc : DbSyncResult) (w : World),
      (stories.map Story.key).Nodup →
      s ∈ stories →
      storyFails w s = true →
      (∀ t ∈ stories, t.key ≠ s.key → storyFails w t = false) →
      (storyLoop dbCfg projId force false m stories acc w).1.stories_failed =
        acc.stories_failed + 1 ∧
      (storyLoop dbCfg projId force false m stories acc w).1.stories_created +
        (storyLoop dbCfg projId force false m stories acc w).1.stories_updated +
        (storyLoop dbCfg projId force false m stories acc w).1.stories_skipped =
        acc.stories_created + acc.stories_updated + acc.stories_skipped +
          (stories.length - 1) ∧
      ("Failed to sync story " ++ s.key ++ ": " ++ createFailMsg) ∈
        (storyLoop dbCfg projId force false m stories acc w).1.errors := by
  induction stories with
  | nil => intro acc w _ hs; cases hs
  | cons t rest ih =>
    intro acc w hnodup hs hfail hothers
    simp only [List.map_cons, List.nodup_cons] at hnodup
    by_cases hkey : t.key = s.key
    · -- the failing story is processed here
      have hfailt : storyFails w t = true := by
        simpa [storyFails, hkey] using hfail
      have hstep := syncStory_fail_step dbCfg.tasks t (lookup m t.epic_key)
        projId force w hdb hfailt
      simp only [storyLoop, hstep]
      have hrestok : ∀ t' ∈ rest, storyFails w t' = false := by
        intro t' ht'
        refine hothers t' (List.mem_cons_of_mem _ ht') ?_
        intro hc
        exact hnodup.1 (by
          simpa [hc, hkey] using List.mem_map_of_mem Story.key ht')
      have h := storyLoop_no_fail dbCfg projId force m rest hdb
        { acc with
            stories_failed := acc.stories_failed + 1,
            errors := acc.errors ++
              ["Failed to sync story " ++ t.key ++ ": " ++ createFailMsg] } w
        hnodup.2 hrestok
      refine ⟨?_, ?_, ?_⟩
      · simpa using h.1
      · simp only [List.length_cons] at h ⊢
        omega
      · rw [h.2.2]
        simp [hkey]
    · -- a non-failing story is processed here
      have hsrest : s ∈ rest := by
        rcases List.mem_cons.mp hs with h | h
        · exact absurd (congrArg Story.key h.symm) hkey
        · exact h
      have hokt : storyFails w t = false :=
        hothers t (List.mem_cons_self _ _) hkey
      obtain ⟨a, w', hstep⟩ :=
        syncStory_ok_step dbCfg.tasks t (lookup m t.epic_key) projId force w hdb hokt
      have hpres : ∀ u : Story, u.key ≠ t.key → storyFails w' u = storyFails w u := by
        intro u hu
        calc storyFails w' u =
            storyFails ((syncStory dbCfg.tasks t (lookup m t.epic_key) projId
              force false w).2) u := by rw [hstep]
          _ = storyFails w u := storyFails_preserved dbCfg.tasks t u _ _ _ _ w hu
      have hskey : s.key ≠ t.key := by
        intro hc
        exact hnodup.1 (by simpa [hc] using List.mem_map_of_mem Story.key hsrest)
      have hfail' : storyFails w' s = true := by rw [hpres s hskey]; exact hfail
      have hothers' : ∀ u ∈ rest, u.key ≠ s.key → storyFails w' u = false := by
        intro u hu hune
        have hut : u.key ≠ t.key := by
          intro hc
          exact hnodup.1 (by simpa [hc] using List.mem_map_of_mem Story.key hu)
        rw [hpres u hut]
        exact hothers u (List.mem_cons_of_mem _ hu) hune
      have hlen : 1 ≤ rest.length := by
        rcases rest with _ | _
        · cases hsrest
        · simp
      simp only [storyLoop, hstep]
      rcases a with _ | _ | _
      · have h := ih { acc with stories_created := acc.stories_created + 1 } w'
          hnodup.2 hsrest hfail' hothers'
        refine ⟨by simpa using h.1, ?_, h.2.2⟩
        simp only [List.length_cons] at h ⊢
        omega
      · have h := ih { acc with stories_updated := acc.stories_updated + 1 } w'
          hnodup.2 hsrest hfail' hothers'
        refine ⟨by simpa using h.1, ?_, h.2.2⟩
        simp only [List.length_cons] at h ⊢
        omega
      · have h := ih { acc with stories_skipped := acc.stories_skipped + 1 } w'
          hnodup.2 hsrest hfail' hothers'
        refine ⟨by simpa using h.1, ?_, h.2.2⟩
        simp only [List.length_cons] at h ⊢
        omega

theorem epicLoop_frame (dbCfg : DatabaseSyncConfig) (force dryRun : Bool)
    (epics : List Epic) :
    ∀ (acc : DbSyncResult) (m : List (String × String)) (w : World),
      ((epicLoop dbCfg force dryRun epics acc m w).2.2).failCreates = w.failCreates ∧
      ∀ k, k ∉ epics.map Epic.key →
        lookup ((epicLoop dbCfg force dryRun epics acc m w).2.2).dbs k =
          lookup w.dbs k := by
  induction epics with
  | nil => intro acc m w; simp [epicLoop]
  | cons e rest ih =>
    intro acc m w
    simp only [epicLoop]
    rcases hs : syncEpic dbCfg e force dryRun w with ⟨r, w'⟩
    have hf := syncEpic_frame dbCfg e force dryRun w
    rw [hs] at hf
    obtain ⟨hf1, -, hf3⟩ := hf
    have step : ∀ (acc' : DbSyncResult) (m' : List (String × String)),
        ((epicLoop dbCfg force dryRun rest acc' m' w').2.2).failCreates =
          w.failCreates ∧
        ∀ k, k ∉ (e :: rest).map Epic.key →
          lookup ((epicLoop dbCfg force dryRun rest acc' m' w').2.2).dbs k =
            lookup w.dbs k := by
      intro acc' m'
      obtain ⟨h1, h2⟩ := ih acc' m' w'
      refine ⟨h1.trans hf1, fun k hk => ?_⟩
      simp only [List.map_cons, List.mem_cons, not_or] at hk
      exact (h2 k hk.2).trans (hf3 k hk.1)
    rcases r with err | ap
    · exact step _ _
    · rcases ap with ⟨a, pid⟩
      rcases a <;> exact step _ _

theorem epicLoop_story_fields (dbCfg : DatabaseSyncConfig) (force dryRun : Bool)
    (epics : List Epic) :
    ∀ (acc : DbSyncResult) (m : List (String × String)) (w : World),
      (epicLoop dbCfg force dryRun epics acc m w).1.stories_created =
        acc.stories_created ∧
      (epicLoop dbCfg force dryRun epics acc m w).1.stories_updated =
        acc.stories_updated ∧
      (epicLoop dbCfg force dryRun epics acc m w).1.stories_skipped =
        acc.stories_skipped ∧
      (epicLoop dbCfg force dryRun epics acc m w).1.stories_failed =
        acc.stories_failed ∧
      ∃ es, (epicLoop dbCfg force dryRun epics acc m w).1.errors =
        acc.errors ++ es := by
  induction epics with
  | nil => intro acc m w; simp [epicLoop]
  | cons e rest ih =>
    intro acc m w
    simp only [epicLoop]
    rcases hs : syncEpic dbCfg e force dryRun w with ⟨r, w'⟩
    rcases r with err | ap
    · obtain ⟨h1, h2, h3, h4, es, h5⟩ := ih
        { acc with
            epics_failed := acc.epics_failed + 1,
            errors := acc.errors ++
              ["Failed to sync epic " ++ e.key ++ ": " ++ err] } m w'
      refine ⟨h1, h2, h3, h4,
        ("Failed to sync epic " ++ e.key ++ ": " ++ err) :: es, ?_⟩
      rw [h5]
      simp
    · rcases ap with ⟨a, pid⟩
      rcases a with _ | _ | _
      · obtain ⟨h1, h2, h3, h4, es, h5⟩ := ih
          { acc with epics_created := acc.epics_created + 1 }
          (upsert m e.key pid) w'
        exact ⟨h1, h2, h3, h4, es, h5⟩
      · obtain ⟨h1, h2, h3, h4, es, h5⟩ := ih
          { acc with epics_updated := acc.epics_updated + 1 }
          (upsert m e.key pid) w'
        exact ⟨h1, h2, h3, h4, es, h5⟩
      · obtain ⟨h1, h2, h3, h4, es, h5⟩ := ih
          { acc with epics_skipped := acc.epics_skipped + 1 }
          (upsert m e.key pid) w'
        exact ⟨h1, h2, h3, h4, es, h5⟩

/-- C5: when, among the stories of one database-sync call, exactly one story
raises during its remote creation (it has no record and its create is the
one the client fails) and every other story completes, the result reports
exactly one story failed, the other N-1 as created/updated/skipped, and the
errors list contains the message naming the failing story's key. -/
theorem spec_C5 (dbCfg : DatabaseSyncConfig) (epics : List Epic)
    (stories : List Story) (s : Story) (force : Bool) (projId : Option String)
    (w : World)
    (hdb : dbCfg.tasks.database_id.getD "" ≠ "")
    (hnodup : (stories.map Story.key).Nodup)
    (hs : s ∈ stories)
    (hdisj : ∀ t ∈ stories, t.key ∉ epics.map Epic.key)
    (hnew : lookup w.dbs s.key = none)
    (hfailkey : s.key ∈ w.failCreates)
    (hothers : ∀ t ∈ stories, t.key ≠ s.key → storyFails w t = false) :
    (dbSyncCore dbCfg epics stories force false projId w).1.stories_failed = 1 ∧
    (dbSyncCore dbCfg epics stories force false projId w).1.stories_created +
      (dbSyncCore dbCfg epics stories force false projId w).1.stories_updated +
      (dbSyncCore dbCfg epics stories force false projId w).1.stories_skipped =
      stories.length - 1 ∧
    ("Failed to sync story " ++ s.key ++ ": " ++ createFailMsg) ∈
      (dbSyncCore dbCfg epics stories force false projId w).1.errors := by
  simp only [dbSyncCore]
  rcases hE : epicLoop dbCfg force false epics {} [] w with ⟨accE, mE, wE⟩
  have hfr := epicLoop_frame dbCfg force false epics {} [] w
  rw [hE] at hfr
  obtain ⟨hfc, hlk⟩ := hfr
  dsimp only at hfc hlk
  have hsf := epicLoop_story_fields dbCfg force false epics {} [] w
  rw [hE] at hsf
  obtain ⟨hc0, hu0, hk0, hf0, es, herr⟩ := hsf
  dsimp only at hc0 hu0 hk0 hf0 herr
  have hpres : ∀ t ∈ stories, storyFails wE t = storyFails w t := by
    intro t ht
    simp [storyFails, hfc, hlk t.key (hdisj t ht)]
  have hone := storyLoop_one_fail dbCfg projId force mE stories s hdb accE wE
    hnodup hs
    (by rw [hpres s hs]; simp [storyFails, hnew, hfailkey])
    (fun t ht hne => by rw [hpres t ht]; exact hothers t ht hne)
  dsimp only
  refine ⟨by rw [hone.1, hf0], ?_, hone.2.2⟩
  rw [hone.2.1, hc0, hu0, hk0]
  omega

/-- A database-sync configuration with all three databases configured. -/
def witDbCfg : DatabaseSyncConfig :=
  { projects := { database_id := some "pdb" },
    sprints := { database_id := some "sdb", name_property := "Name",
                 status_property := "Status", status_mapping := [] },
    tasks := { database_id := some "tdb", name_property := "Name",
               status_property := "Status", require_story_file := false,
               status_mapping := [] } }

/-- Witness stories for C5: two new stories, the second one's create fails. -/
def witStoriesC5 : List Story :=
  [⟨"1-1-a", "epic-1", "A", "done", none, none, none⟩,
   ⟨"1-2-b", "epic-1", "B", "done", none, none, none⟩]

/-- The failing story of the C5 witness. -/
def witBadC5 : Story := ⟨"1-2-b", "epic-1", "B", "done", none, none, none⟩

/-- The C5 witness world: empty store, `1-2-b`'s create raises. -/
def witWorldC5 : World := { failCreates := ["1-2-b"] }

theorem spec_C5_witness :
    (witDbCfg.tasks.database_id.getD "" ≠ "" ∧
     (witStoriesC5.map Story.key).Nodup ∧
     witBadC5 ∈ witStoriesC5 ∧
     lookup witWorldC5.dbs witBadC5.key = none ∧
     witBadC5.key ∈ witWorldC5.failCreates) ∧
    ((dbSyncCore witDbCfg [] witStoriesC5 false false none witWorldC5).1.stories_failed = 1 ∧
     (dbSyncCore witDbCfg [] witStoriesC5 false false none witWorldC5).1.stories_created +
       (dbSyncCore witDbCfg [] witStoriesC5 false false none witWorldC5).1.stories_updated +
       (dbSyncCore witDbCfg [] witStoriesC5 false false none witWorldC5).1.stories_skipped =
       witStoriesC5.length - 1 ∧
     ("Failed to sync story " ++ witBadC5.key ++ ": " ++ createFailMsg) ∈
       (dbSyncCore witDbCfg [] witStoriesC5 false false none witWorldC5).1.errors) :=
  ⟨⟨by decide, by decide, by decide, by decide, by decide⟩,
   spec_C5 witDbCfg [] witStoriesC5 witBadC5 false none witWorldC5
     (by decide) (by decide) (by decide) (by decide) (by decide) (by decide)
     (by decide)⟩

/-! ## C6: phase ordering in database sync -/

/-- Any remote call the epic phase can make. -/
def epicAnyEvent (dbCfg : DatabaseSyncConfig) (ev : RemoteCall) : Prop :=
  (∃ p r, ev = .createDbEntry (dbCfg.sprints.database_id.getD "") p r) ∨
  (∃ pid p, ev = .updateDbEntry pid p)

/-- Any remote call the story phase can make. -/
def storyAnyEvent (tc : TasksDbConfig) (ev : RemoteCall) : Prop :=
  (∃ p r, ev = .createDbEntry (tc.database_id.getD "") p r) ∨
  (∃ pid p, ev = .updateDbEntry pid p) ∨
  (∃ pid, ev = .clearPage pid) ∨
  (∃ pid, ev = .appendBlocks pid)

theorem epicLoop_trace (dbCfg : DatabaseSyncConfig) (force dryRun : Bool)
    (epics : List Epic) :
    ∀ (acc : DbSyncResult) (m : List (String × String)) (w : World),
      ∃ t, ((epicLoop dbCfg force dryRun epics acc m w).2.2).trace = t ++ w.trace ∧
        ∀ ev ∈ t, ∃ e ∈ epics, epicEvent dbCfg e ev := by
  induction epics with
  | nil => intro acc m w; exact ⟨[], by simp [epicLoop]⟩
  | cons e0 rest ih =>
    intro acc m w
    simp only [epicLoop]
    rcases hs : syncEpic dbCfg e0 force dryRun w with ⟨r, w'⟩
    have ht := syncEpic_trace dbCfg e0 force dryRun w
    rw [hs] at ht
    obtain ⟨t0, ht0, ht0ev⟩ := ht
    have step : ∀ (acc' : DbSyncResult) (m' : List (String × String)),
        ∃ t, ((epicLoop dbCfg force dryRun rest acc' m' w').2.2).trace =
            t ++ w.trace ∧
          ∀ ev ∈ t, ∃ e ∈ e0 :: rest, epicEvent dbCfg e ev := by
      intro acc' m'
      obtain ⟨t1, ht1, ht1ev⟩ := ih acc' m' w'
      refine ⟨t1 ++ t0, by rw [ht1, ht0, List.append_assoc], ?_⟩
      intro ev hev
      rcases List.mem_append.mp hev with h | h
      · obtain ⟨e, he, hee⟩ := ht1ev ev h
        exact ⟨e, List.mem_cons_of_mem _ he, hee⟩
      · exact ⟨e0, List.mem_cons_self _ _, ht0ev ev h⟩
    rcases r with err | ap
    · exact step _ _
    · rcases ap with ⟨a, pid⟩
      rcases a <;> exact step _ _

theorem storyLoop_trace (dbCfg : DatabaseSyncConfig) (projId : Option String)
    (force dryRun : Bool) (m : List (String × String)) (stories : List Story) :
    ∀ (acc : DbSyncResult) (w : World),
      ∃ t, ((storyLoop dbCfg projId force dryRun m stories acc w).2).trace =
          t ++ w.trace ∧
        ∀ ev ∈ t, ∃ s ∈ stories, storyEvent dbCfg.tasks s ev := by
  induction stories with
  | nil => intro acc w; exact ⟨[], by simp [storyLoop]⟩
  | cons s0 rest ih =>
    intro acc w
    simp only [storyLoop]
    rcases hs : syncStory dbCfg.tasks s0 (lookup m s0.epic_key) projId
      force dryRun w with ⟨r, w'⟩
    have ht := syncStory_trace dbCfg.tasks s0 (lookup m s0.epic_key) projId
      force dryRun w
    rw [hs] at ht
    obtain ⟨t0, ht0, ht0ev⟩ := ht
    have step : ∀ (acc' : DbSyncResult),
        ∃ t, ((storyLoop dbCfg projId force dryRun m rest acc' w').2).trace =
            t ++ w.trace ∧
          ∀ ev ∈ t, ∃ s ∈ s0 :: rest, storyEvent dbCfg.tasks s ev := by
      intro acc'
      obtain ⟨t1, ht1, ht1ev⟩ := ih acc' w'
      refine ⟨t1 ++ t0, by rw [ht1, ht0, List.append_assoc], ?_⟩
      intro ev hev
      rcases List.mem_append.mp hev with h | h
      · obtain ⟨s, hsm, hse⟩ := ht1ev ev h
        exact ⟨s, List.mem_cons_of_mem _ hsm, hse⟩
      · exact ⟨s0, List.mem_cons_self _ _, ht0ev ev h⟩
    rcases r with err | a
    · exact step _
    · rcases a <;> exact step _

theorem storyLoop_epic_fields (dbCfg : DatabaseSyncConfig)
    (projId : Option String) (force dryRun : Bool) (m : List (String × String))
    (stories : List Story) :
    ∀ (acc : DbSyncResult) (w : World),
      (storyLoop dbCfg projId force dryRun m stories acc w).1.epics_created =
        acc.epics_created ∧
      (storyLoop dbCfg projId force dryRun m stories acc w).1.epics_updated =
        acc.epics_updated ∧
      (storyLoop dbCfg projId force dryRun m stories acc w).1.epics_skipped =
        acc.epics_skipped ∧
      (storyLoop dbCfg projId force dryRun m stories acc w).1.epics_failed =
        acc.epics_failed := by
  induction stories with
  | nil => intro acc w; simp [storyLoop]
  | cons s0 rest ih =>
    intro acc w
    simp only [storyLoop]
    rcases hs : syncStory dbCfg.tasks s0 (lookup m s0.epic_key) projId
      force dryRun w with ⟨r, w'⟩
    rcases r with err | a
    · exact ih _ w'
    · rcases a <;> exact ih _ w'

/-- C6: within one database-sync call, the epic phase strictly precedes the
story phase.  The epic tallies are exactly those of a run processing no
stories at all (each epic's decision is completed and tallied before any
story is touched), and the new remote-call trace splits into an older
segment with no Tasks-database create and a newer segment with no
Sprints-database create. -/
theorem spec_C6 (dbCfg : DatabaseSyncConfig) (epics : List Epic)
    (stories : List Story) (force dryRun : Bool) (projId : Option String)
    (w : World)
    (hne : dbCfg.sprints.database_id.getD "" ≠ dbCfg.tasks.database_id.getD "") :
    ((dbSyncCore dbCfg epics stories force dryRun projId w).1.epics_created =
       (dbSyncCore dbCfg epics [] force dryRun projId w).1.epics_created ∧
     (dbSyncCore dbCfg epics stories force dryRun projId w).1.epics_updated =
       (dbSyncCore dbCfg epics [] force dryRun projId w).1.epics_updated ∧
     (dbSyncCore dbCfg epics stories force dryRun projId w).1.epics_skipped =
       (dbSyncCore dbCfg epics [] force dryRun projId w).1.epics_skipped ∧
     (dbSyncCore dbCfg epics stories force dryRun projId w).1.epics_failed =
       (dbSyncCore dbCfg epics [] force dryRun projId w).1.epics_failed) ∧
    ∃ pre post,
      ((dbSyncCore dbCfg epics stories force dryRun projId w).2).trace =
        (post ++ pre) ++ w.trace ∧
      (∀ ev ∈ pre, isCreateTo (dbCfg.tasks.database_id.getD "") ev = false) ∧
      (∀ ev ∈ post, isCreateTo (dbCfg.sprints.database_id.getD "") ev = false) := by
  simp only [dbSyncCore]
  rcases hE : epicLoop dbCfg force dryRun epics {} [] w with ⟨accE, mE, wE⟩
  dsimp only
  constructor
  · have hsf := storyLoop_epic_fields dbCfg projId force dryRun mE stories accE wE
    simp only [storyLoop]
    exact ⟨hsf.1, hsf.2.1, hsf.2.2.1, hsf.2.2.2⟩
  · obtain ⟨pre, hpre, hpreev⟩ := epicLoop_trace dbCfg force dryRun epics {} [] w
    rw [hE] at hpre
    dsimp only at hpre
    obtain ⟨post, hpost, hpostev⟩ :=
      storyLoop_trace dbCfg projId force dryRun mE stories accE wE
    refine ⟨pre, post, ?_, ?_, ?_⟩
    · rw [hpost, hpre]
      exact (List.append_assoc post pre w.trace).symm
    · intro ev hev
      obtain ⟨e, -, hee⟩ := hpreev ev hev
      rcases hee with ⟨p, r, rfl, -⟩ | ⟨pid, p, rfl⟩
      · simp only [isCreateTo]
        exact beq_eq_false_iff_ne.mpr hne
      · rfl
    · intro ev hev
      obtain ⟨s, -, hse⟩ := hpostev ev hev
      rcases hse with ⟨p, r, rfl, -⟩ | ⟨pid, p, rfl⟩ | ⟨pid, rfl⟩ | ⟨pid, rfl⟩
      · simp only [isCreateTo]
        exact beq_eq_false_iff_ne.mpr (Ne.symm hne)
      · rfl
      · rfl
      · rfl

/-- Witness epics for C6. -/
def witEpicsC6 : List Epic := [⟨"epic-1", "Epic 1", "backlog", none, none⟩]

theorem spec_C6_witness :
    (witDbCfg.sprints.database_id.getD "" ≠ witDbCfg.tasks.database_id.getD "") ∧
    (((dbSyncCore witDbCfg witEpicsC6 witStoriesC5 false false none {}).1.epics_created =
        (dbSyncCore witDbCfg witEpicsC6 [] false false none {}).1.epics_created ∧
      (dbSyncCore witDbCfg witEpicsC6 witStoriesC5 false false none {}).1.epics_updated =
        (dbSyncCore witDbCfg witEpicsC6 [] false false none {}).1.epics_updated ∧
      (dbSyncCore witDbCfg witEpicsC6 witStoriesC5 false false none {}).1.epics_skipped =
        (dbSyncCore witDbCfg witEpicsC6 [] false false none {}).1.epics_skipped ∧
      (dbSyncCore witDbCfg witEpicsC6 witStoriesC5 false false none {}).1.epics_failed =
        (dbSyncCore witDbCfg witEpicsC6 [] false false none {}).1.epics_failed) ∧
     ∃ pre post,
       ((dbSyncCore witDbCfg witEpicsC6 witStoriesC5 false false none {}).2).trace =
         (post ++ pre) ++ ({} : World).trace ∧
       (∀ ev ∈ pre, isCreateTo (witDbCfg.tasks.database_id.getD "") ev = false) ∧
       (∀ ev ∈ post, isCreateTo (witDbCfg.sprints.database_id.getD "") ev = false)) :=
  ⟨by decide,
   spec_C6 witDbCfg witEpicsC6 witStoriesC5 false false none {} (by decide)⟩

/-! ## C4: relation wiring from freshly created epics to stories -/

theorem freshId_ne_empty (w : World) : w.freshId ≠ "" := by
  intro h
  have hd := congrArg String.data h
  simp [World.freshId, String.data] at hd

/-- The exact result of a successful epic create. -/
theorem syncEpic_create (dbCfg : DatabaseSyncConfig) (e : Epic) (force : Bool)
    (w : World)
    (hl : lookup w.dbs e.key = none)
    (hdb : dbCfg.sprints.database_id.getD "" ≠ "")
    (hnf : e.key ∉ w.failCreates) :
    syncEpic dbCfg e force false w =
      (.ok (.created, w.freshId),
       { w with
           dbs := upsert w.dbs e.key ⟨e.key, "epic", w.freshId, e.mtime, none⟩,
           trace := .createDbEntry (dbCfg.sprints.database_id.getD "")
             (epicProps dbCfg.sprints e) w.freshId :: w.trace,
           nextId := w.nextId + 1 }) := by
  rw [syncEpic_eq, hl]
  simp [syncEpicPush, hdb, hnf]

theorem epicLoop_map_frame (dbCfg : DatabaseSyncConfig) (force dryRun : Bool)
    (epics : List Epic) :
    ∀ (acc : DbSyncResult) (m : List (String × String)) (w : World) (k : String),
      k ∉ epics.map Epic.key →
      lookup ((epicLoop dbCfg force dryRun epics acc m w).2.1) k = lookup m k := by
  induction epics with
  | nil => intro acc m w k _; simp [epicLoop]
  | cons e0 rest ih =>
    intro acc m w k hk
    simp only [List.map_cons, List.mem_cons, not_or] at hk
    simp only [epicLoop]
    rcases hs : syncEpic dbCfg e0 force dryRun w with ⟨r, w'⟩
    rcases r with err | ap
    · exact ih _ m w' k hk.2
    · rcases ap with ⟨a, pid⟩
      have hstep : ∀ (acc' : DbSyncResult),
          lookup ((epicLoop dbCfg force dryRun rest acc' (upsert m e0.key pid) w').2.1) k
            = lookup m k := by
        intro acc'
        rw [ih acc' (upsert m e0.key pid) w' k hk.2]
        exact lookup_upsert_ne _ _ (fun hc => hk.1 hc.symm)
      rcases a <;> exact hstep _

theorem epicLoop_creates (dbCfg : DatabaseSyncConfig) (force : Bool)
    (epics : List Epic)
    (hdb : dbCfg.sprints.database_id.getD "" ≠ "") :
    ∀ (acc : DbSyncResult) (m : List (String × String)) (w : World) (e : Epic),
      (epics.map Epic.key).Nodup → e ∈ epics →
      lookup w.dbs e.key = none → e.key ∉ w.failCreates →
      ∃ pid, pid ≠ "" ∧
        lookup ((epicLoop dbCfg force false epics acc m w).2.1) e.key = some pid ∧
        (RemoteCall.createDbEntry (dbCfg.sprints.database_id.getD "")
          (epicProps dbCfg.sprints e) pid) ∈
          ((epicLoop dbCfg force false epics acc m w).2.2).trace ∧
        ∀ p r, (RemoteCall.createDbEntry (dbCfg.sprints.database_id.getD "") p r)
            ∈ ((epicLoop dbCfg force false epics acc m w).2.2).trace →
          p.keyProp.2 = e.key →
          (RemoteCall.createDbEntry (dbCfg.sprints.database_id.getD "") p r ∈ w.trace
            ∨ (p = epicProps dbCfg.sprints e ∧ r = pid)) := by
  induction epics with
  | nil => intro acc m w e _ hmem; cases hmem
  | cons e0 rest ih =>
    intro acc m w e hnodup hmem hl hnf
    simp only [List.map_cons, List.nodup_cons] at hnodup
    rcases List.mem_cons.mp hmem with rfl | hmem'
    · -- e is processed at the head of the loop
      rw [show epicLoop dbCfg force false (e :: rest) acc m w =
          epicLoop dbCfg force false rest
            { acc with epics_created := acc.epics_created + 1 }
            (upsert m e.key w.freshId)
            { w with
                dbs := upsert w.dbs e.key ⟨e.key, "epic", w.freshId, e.mtime, none⟩,
                trace := .createDbEntry (dbCfg.sprints.database_id.getD "")
                  (epicProps dbCfg.sprints e) w.freshId :: w.trace,
                nextId := w.nextId + 1 } from by
        simp only [epicLoop, syncEpic_create dbCfg e force w hl hdb hnf]]
      obtain ⟨t1, ht1, ht1ev⟩ := epicLoop_trace dbCfg force false rest
        { acc with epics_created := acc.epics_created + 1 }
        (upsert m e.key w.freshId)
        { w with
            dbs := upsert w.dbs e.key ⟨e.key, "epic", w.freshId, e.mtime, none⟩,
            trace := .createDbEntry (dbCfg.sprints.database_id.getD "")
              (epicProps dbCfg.sprints e) w.freshId :: w.trace,
            nextId := w.nextId + 1 }
      refine ⟨w.freshId, freshId_ne_empty w, ?_, ?_, ?_⟩
      · rw [epicLoop_map_frame dbCfg force false rest _ _ _ e.key hnodup.1]
        exact lookup_upsert_self _ _ _
      · rw [ht1]
        exact List.mem_append_right _ (List.mem_cons_self _ _)
      · intro p r hm hk
        rw [ht1] at hm
        rcases List.mem_append.mp hm with hm | hm
        · obtain ⟨e', he', hee⟩ := ht1ev _ hm
          rcases hee with ⟨p', r', heq, hk'⟩ | ⟨pid', p', heq⟩
          · injection heq with h1 h2 h3
            exfalso
            apply hnodup.1
            have hkk : e'.key = e.key := by rw [← hk', ← h2]; exact hk
            rw [← hkk]
            exact List.mem_map_of_mem Epic.key he'
          · exact RemoteCall.noConfusion heq
        · rcases List.mem_cons.mp hm with hm | hm
          · injection hm with h1 h2 h3
            exact Or.inr ⟨h2, h3⟩
          · exact Or.inl hm
    · -- e comes later; the head step preserves everything relevant
      have hkeyne : e0.key ≠ e.key := by
        intro hc
        exact hnodup.1 (by
          simpa [hc] using List.mem_map_of_mem Epic.key hmem')
      simp only [epicLoop]
      rcases hs : syncEpic dbCfg e0 force false w with ⟨r0, w'⟩
      have hfr := syncEpic_frame dbCfg e0 force false w
      rw [hs] at hfr
      obtain ⟨hfc, -, hlkp⟩ := hfr
      have htr := syncEpic_trace dbCfg e0 force false w
      rw [hs] at htr
      obtain ⟨t0, ht0, ht0ev⟩ := htr
      have hl' : lookup w'.dbs e.key = none := by
        rw [hlkp e.key (Ne.symm hkeyne)]; exact hl
      have hnf' : e.key ∉ w'.failCreates := by rw [hfc]; exact hnf
      have step : ∀ (acc' : DbSyncResult) (m' : List (String × String)),
          ∃ pid, pid ≠ "" ∧
            lookup ((epicLoop dbCfg force false rest acc' m' w').2.1) e.key = some pid ∧
            (RemoteCall.createDbEntry (dbCfg.sprints.database_id.getD "")
              (epicProps dbCfg.sprints e) pid) ∈
              ((epicLoop dbCfg force false rest acc' m' w').2.2).trace ∧
            ∀ p r, (RemoteCall.createDbEntry (dbCfg.sprints.database_id.getD "") p r)
                ∈ ((epicLoop dbCfg force false rest acc' m' w').2.2).trace →
              p.keyProp.2 = e.key →
              (RemoteCall.createDbEntry (dbCfg.sprints.database_id.getD "") p r ∈ w.trace
                ∨ (p = epicProps dbCfg.sprints e ∧ r = pid)) := by
        intro acc' m'
        obtain ⟨pid, hpid, hmap, hev, huniq⟩ := ih acc' m' w' e hnodup.2 hmem' hl' hnf'
        refine ⟨pid, hpid, hmap, hev, ?_⟩
        intro p r hm hk
        rcases huniq p r hm hk with hin | hthe
        · rw [ht0] at hin
          rcases List.mem_append.mp hin with hin | hin
          · obtain hee := ht0ev _ hin
            rcases hee with ⟨p', r', heq, hk'⟩ | ⟨pid', p', heq⟩
            · exfalso
              apply hkeyne
              injection heq with h1 h2 h3
              rw [← hk', ← h2]
              exact hk
            · exact RemoteCall.noConfusion heq
          · exact Or.inl hin
        · exact Or.inr hthe
      rcases r0 with err | ap
      · exact step _ _
      · rcases ap with ⟨a, pid0⟩
        rcases a <;> exact step _ _

/-- A successful story create records a create call carrying the built
properties. -/
theorem syncStory_create (tc : TasksDbConfig) (s : Story)
    (epicPageId projId : Option String) (force : Bool) (w : World)
    (hl : lookup w.dbs s.key = none)
    (htdb : tc.database_id.getD "" ≠ "")
    (hnf : s.key ∉ w.failCreates) :
    ∃ w', syncStory tc s epicPageId projId force false w = (.ok .created, w') ∧
      (RemoteCall.createDbEntry (tc.database_id.getD "")
        (storyProps tc s epicPageId projId) w.freshId) ∈ w'.trace := by
  rw [syncStory_eq, storyNeedsPush_of_new w force s hl]
  simp only [syncStoryPush, hl, htdb, hnf, Bool.false_eq_true, if_false,
    ite_false, if_true, ite_true]
  by_cases hc : (s.content.getD "") ≠ "" <;>
    simp [hc]

theorem storyLoop_creates (dbCfg : DatabaseSyncConfig) (projId : Option String)
    (force : Bool) (m : List (String × String)) (stories : List Story)
    (htdb : dbCfg.tasks.database_id.getD "" ≠ "") :
    ∀ (acc : DbSyncResult) (w : World) (s : Story),
      (stories.map Story.key).Nodup → s ∈ stories →
      lookup w.dbs s.key = none → s.key ∉ w.failCreates →
      ∃ rr, (RemoteCall.createDbEntry (dbCfg.tasks.database_id.getD "")
          (storyProps dbCfg.tasks s (lookup m s.epic_key) projId) rr) ∈
        ((storyLoop dbCfg projId force false m stories acc w).2).trace := by
  induction stories with
  | nil => intro acc w s _ hmem; cases hmem
  | cons s0 rest ih =>
    intro acc w s hnodup hmem hl hnf
    simp only [List.map_cons, List.nodup_cons] at hnodup
    rcases List.mem_cons.mp hmem with rfl | hmem'
    · obtain ⟨w', hstep, hev⟩ :=
        syncStory_create dbCfg.tasks s (lookup m s.epic_key) projId force w
          hl htdb hnf
      simp only [storyLoop, hstep]
      obtain ⟨t1, ht1, -⟩ := storyLoop_trace dbCfg projId force false m rest
        { acc with stories_created := acc.stories_created + 1 } w'
      refine ⟨w.freshId, ?_⟩
      rw [ht1]
      exact List.mem_append_right _ hev
    · have hkeyne : s0.key ≠ s.key := by
        intro hc
        exact hnodup.1 (by
          simpa [hc] using List.mem_map_of_mem Story.key hmem')
      simp only [storyLoop]
      rcases hs0 : syncStory dbCfg.tasks s0 (lookup m s0.epic_key) projId
        force false w with ⟨r0, w'⟩
      have hfr := syncStory_frame dbCfg.tasks s0 (lookup m s0.epic_key) projId
        force false w
      rw [hs0] at hfr
      obtain ⟨hfc, -, hlkp⟩ := hfr
      have hl' : lookup w'.dbs s.key = none := by
        rw [hlkp s.key (Ne.symm hkeyne)]; exact hl
      have hnf' : s.key ∉ w'.failCreates := by rw [hfc]; exact hnf
      have step : ∀ (acc' : DbSyncResult),
          ∃ rr, (RemoteCall.createDbEntry (dbCfg.tasks.database_id.getD "")
              (storyProps dbCfg.tasks s (lookup m s.epic_key) projId) rr) ∈
            ((storyLoop dbCfg projId force false m rest acc' w').2).trace :=
        fun acc' => ih acc' w' s hnodup.2 hmem' hl' hnf'
      rcases r0 with err | a
      · exact step _
      · rcases a <;> exact step _

/-- C4: a story whose parent epic was created in the same database-sync run
(the epic had no prior SyncRecord and its create succeeded) issues its own
remote create with a `Sprint` relation naming exactly the remote id the
epic's creation returned in this run. -/
theorem spec_C4 (dbCfg : DatabaseSyncConfig) (epics : List Epic)
    (stories : List Story) (e : Epic) (s : Story) (force : Bool)
    (projId : Option String) (w : World)
    (hsdb : dbCfg.sprints.database_id.getD "" ≠ "")
    (htdb : dbCfg.tasks.database_id.getD "" ≠ "")
    (hne : dbCfg.sprints.database_id.getD "" ≠ dbCfg.tasks.database_id.getD "")
    (htrace : w.trace = [])
    (hnodupE : (epics.map Epic.key).Nodup)
    (hnodupS : (stories.map Story.key).Nodup)
    (he : e ∈ epics) (hs : s ∈ stories) (hparent : s.epic_key = e.key)
    (heNew : lookup w.dbs e.key = none) (heOk : e.key ∉ w.failCreates)
    (hsNew : lookup w.dbs s.key = none) (hsOk : s.key ∉ w.failCreates)
    (hdisj : s.key ∉ epics.map Epic.key) :
    ∃ pid rs,
      pid ≠ "" ∧
      (RemoteCall.createDbEntry (dbCfg.sprints.database_id.getD "")
          (epicProps dbCfg.sprints e) pid) ∈
        ((dbSyncCore dbCfg epics stories force false projId w).2).trace ∧
      (storyProps dbCfg.tasks s (some pid) projId).sprintRel = some pid ∧
      (storyProps dbCfg.tasks s (some pid) projId).keyProp.2 = s.key ∧
      (RemoteCall.createDbEntry (dbCfg.tasks.database_id.getD "")
          (storyProps dbCfg.tasks s (some pid) projId) rs) ∈
        ((dbSyncCore dbCfg epics stories force false projId w).2).trace ∧
      ∀ p r, (RemoteCall.createDbEntry (dbCfg.sprints.database_id.getD "") p r) ∈
          ((dbSyncCore dbCfg epics stories force false projId w).2).trace →
        p.keyProp.2 = e.key → r = pid := by
  simp only [dbSyncCore]
  rcases hE : epicLoop dbCfg force false epics {} [] w with ⟨accE, mE, wE⟩
  dsimp only
  have hec := epicLoop_creates dbCfg force epics hsdb {} [] w e hnodupE he
    heNew heOk
  rw [hE] at hec
  dsimp only at hec
  obtain ⟨pid, hpid, hmap, hevE, huniqE⟩ := hec
  have hfr := epicLoop_frame dbCfg force false epics {} [] w
  rw [hE] at hfr
  obtain ⟨hfc, hlkp⟩ := hfr
  dsimp only at hfc hlkp
  have hsNew' : lookup wE.dbs s.key = none := by
    rw [hlkp s.key hdisj]; exact hsNew
  have hsOk' : s.key ∉ wE.failCreates := by rw [hfc]; exact hsOk
  obtain ⟨rs, hevS⟩ := storyLoop_creates dbCfg projId force mE stories htdb
    accE wE s hnodupS hs hsNew' hsOk'
  rw [hparent, hmap] at hevS
  obtain ⟨tS, htS, htSev⟩ := storyLoop_trace dbCfg projId force false mE
    stories accE wE
  refine ⟨pid, rs, hpid, ?_, ?_, rfl, hevS, ?_⟩
  · rw [htS]
    exact List.mem_append_right _ hevE
  · simp [storyProps, hpid]
  · intro p r hm hk
    rw [htS] at hm
    rcases List.mem_append.mp hm with hm | hm
    · obtain ⟨s', -, hse⟩ := htSev _ hm
      rcases hse with ⟨p', r', heq, -⟩ | ⟨pid', p', heq⟩ | ⟨pid', heq⟩ | ⟨pid', heq⟩
      · injection heq with h1 h2 h3
        exact absurd h1 hne
      · exact RemoteCall.noConfusion heq
      · exact RemoteCall.noConfusion heq
      · exact RemoteCall.noConfusion heq
    · rcases huniqE p r hm hk with hin | hthe
      · rw [htrace] at hin
        cases hin
      · exact hthe.2

/-- The C4 witness epic. -/
def witEpicC4 : Epic := ⟨"epic-1", "Epic 1", "backlog", none, none⟩

/-- The C4 witness story (child of `epic-1`). -/
def witStoryC4 : Story := ⟨"1-1-a", "epic-1", "A", "done", none, none, none⟩

theorem spec_C4_witness :
    (witDbCfg.sprints.database_id.getD "" ≠ "" ∧
     witDbCfg.tasks.database_id.getD "" ≠ "" ∧
     witDbCfg.sprints.database_id.getD "" ≠ witDbCfg.tasks.database_id.getD "" ∧
     ({} : World).trace = [] ∧
     witEpicC4 ∈ witEpicsC6 ∧
     witStoryC4 ∈ witStoriesC5 ∧
     witStoryC4.epic_key = witEpicC4.key ∧
     lookup ({} : World).dbs witEpicC4.key = none ∧
     lookup ({} : World).dbs witStoryC4.key = none ∧
     witStoryC4.key ∉ (witEpicsC6.map Epic.key)) ∧
    (∃ pid rs,
      pid ≠ "" ∧
      (RemoteCall.createDbEntry (witDbCfg.sprints.database_id.getD "")
          (epicProps witDbCfg.sprints witEpicC4) pid) ∈
        ((dbSyncCore witDbCfg witEpicsC6 witStoriesC5 false false none {}).2).trace ∧
      (storyProps witDbCfg.tasks witStoryC4 (some pid) none).sprintRel = some pid ∧
      (storyProps witDbCfg.tasks witStoryC4 (some pid) none).keyProp.2 =
        witStoryC4.key ∧
      (RemoteCall.createDbEntry (witDbCfg.tasks.database_id.getD "")
          (storyProps witDbCfg.tasks witStoryC4 (some pid) none) rs) ∈
        ((dbSyncCore witDbCfg witEpicsC6 witStoriesC5 false false none {}).2).trace ∧
      ∀ p r, (RemoteCall.createDbEntry (witDbCfg.sprints.database_id.getD "") p r) ∈
          ((dbSyncCore witDbCfg witEpicsC6 witStoriesC5 false false none {}).2).trace →
        p.keyProp.2 = witEpicC4.key → r = pid) :=
  ⟨⟨by decide, by decide, by decide, by decide, by decide, by decide, by decide,
    by decide, by decide, by decide⟩,
   spec_C4 witDbCfg witEpicsC6 witStoriesC5 witEpicC4 witStoryC4 false none {}
     (by decide) (by decide) (by decide) (by decide) (by decide) (by decide)
     (by decide) (by decide) (by decide) (by decide) (by decide) (by decide)
     (by decide) (by decide)⟩

end BmadNotion
